import Mathlib

/-!
Shallow embedding of the NLWeb_Core ranking stage (`nlweb_core/ranking.py`),
its LLM wrapper (`nlweb_core/llm.py`) and the post-query map step
(`packages/core/nlweb_core/postQueryProcessing.py`), together with proofs of
the delivery-quota, score-floor, ordering, failure-isolation and flush
properties of that code.

Python values are modelled by the inductive `PyVal`; Python dicts by
insertion-ordered association lists (`PyDict`) with first-match lookup and
in-place overwrite, matching CPython semantics for the dicts this code
builds.  The asynchronous orchestration of `Ranking.do` is modelled at two
granularities.  The coarse model (`rankItem`, `runEvents`) runs each
scoring task's post-LLM section as one step in some arbitrary completion
order; it is adequate for the properties that are insensitive to the
interleavings inside that section.  The fine model (`FState`, `fstep`,
`frun`) cuts the section exactly at its `await` points — the
`pre_checks_done_event.wait()` of line 98 and the `send_answer` of
line 107 — so that the single-threaded asyncio event loop's interleavings
of concurrent tasks between those suspension points are representable;
the quota and liveness claims are settled against it.
-/

/-- Model of a Python/JSON value as it flows through the ranking code. -/
inductive PyVal where
  | vNull
  | vBool (b : Bool)
  | vInt (n : Int)
  | vStr (s : String)
  | vList (xs : List PyVal)
  | vDict (d : List (String × PyVal))


/-- A Python dict: insertion-ordered association list. -/
abbrev PyDict := List (String × PyVal)

/-- Python `d[k]` / `d.get(k)`: first binding of `k`, if any. -/
def dictGet (d : PyDict) (k : String) : Option PyVal :=
  match d with
  | [] => none
  | (k', v) :: rest => if k' = k then some v else dictGet rest k

/-- Python `k in d`. -/
def dictHas (d : PyDict) (k : String) : Bool :=
  (dictGet d k).isSome

/-- Python `d[k] = v`: overwrite in place if present, else append. -/
def dictSet (d : PyDict) (k : String) (v : PyVal) : PyDict :=
  if dictHas d k then d.map (fun p => if p.1 = k then (k, v) else p)
  else d ++ [(k, v)]

/-- Python truthiness of a value. -/
def pyTruthy : PyVal → Bool
  | .vNull => false
  | .vBool b => b
  | .vInt n => n != 0
  | .vStr s => s != ""
  | .vList xs => !xs.isEmpty
  | .vDict d => !d.isEmpty

/-- The integer a value denotes in a Python numeric comparison
(`bool` is an `int` subtype); `none` for types whose comparison with an
`int` raises `TypeError`. -/
def pyIntVal : PyVal → Option Int
  | .vInt n => some n
  | .vBool b => some (if b then 1 else 0)
  | _ => none

/-- Python `v > n` for an optional dict entry `v` and an int literal `n`:
`KeyError` when the entry is missing, `TypeError` when not numeric. -/
def pyGtB (v : Option PyVal) (n : Int) : Except Unit Bool :=
  match v with
  | none => .error ()
  | some v =>
    match pyIntVal v with
    | some m => .ok (decide (n < m))
    | none => .error ()

/-- `Ranking.EARLY_SEND_THRESHOLD`. -/
def EARLY_SEND_THRESHOLD : Int := 59

/-- `Ranking.NUM_RESULTS_TO_SEND`, the default for `max_results`. -/
def NUM_RESULTS_TO_SEND : Nat := 10

/-- Python `a or b` over two optional lookups, as in
`schema_object.get("url") or schema_object.get("@id")`. -/
def pyOrOpt (a b : Option PyVal) : Option PyVal :=
  match a with
  | some v => if pyTruthy v then some v else b
  | none => b

/-- The `result` dict built by `Ranking.rankItem` (ranking.py lines 66-86):
basic fields, then every `schema_object` attribute except `url` written on
top, then an optional `grounding` field. -/
def buildResult (schemaObject : PyDict) (url name site : String)
    (score description : PyVal) : PyDict :=
  let base : PyDict :=
    [("@type", (dictGet schemaObject "@type").getD (.vStr "Item")),
     ("url", .vStr url),
     ("name", .vStr name),
     ("site", .vStr site),
     ("score", score),
     ("description", description),
     ("sent", .vBool false)]
  let withAttrs :=
    schemaObject.foldl
      (fun acc p => if p.1 = "url" then acc else dictSet acc p.1 p.2) base
  match pyOrOpt (dictGet schemaObject "url") (dictGet schemaObject "@id") with
  | some g => if pyTruthy g then dictSet withAttrs "grounding" g else withAttrs
  | none => withAttrs

/-- Truthiness of a record's `sent` flag (`if not r["sent"]`). -/
def isSent (r : PyDict) : Bool :=
  pyTruthy ((dictGet r "sent").getD .vNull)

/-- The payload handed to `handler.send_answer`: every field of the record
except the internal `sent` flag and the raw `score`
(`{k: v for k, v in result.items() if k != "sent" and k != "score"}`). -/
def sendPayload (result : PyDict) : PyDict :=
  result.filter (fun p => !(p.1 == "sent" || p.1 == "score"))

/-- Outcome of one `handler.send_answer` call. -/
inductive SendOutcome where
  | ok
  | connError
  | otherError
deriving DecidableEq

/-- Per-request configuration read through `handler.get_param` /
`CONFIG.should_raise_exceptions`, constant for one request. -/
structure Cfg where
  maxResults : Nat
  minScore : Int
  strict : Bool
deriving DecidableEq

/-- Mutable per-request state of a `Ranking` object and its handler.
`sentLog` records, in delivery order, each record handed successfully to the
transport, as the pair (full record, payload passed to `send_answer`). -/
structure RState where
  rankedAnswers : List PyDict
  numResultsSent : Nat
  alive : Bool
  finalRankedAnswers : Option (List PyDict)
  sentLog : List (PyDict × PyDict)


/-- One scoring task's inputs and environment: the item's parsed
`schema_object`, identity fields, the dict `ask_llm` returned, and the
outcome of the early `send_answer` call should one be attempted. -/
structure ItemRun where
  schemaObject : PyDict
  url : String
  name : String
  site : String
  llmResponse : PyDict
  sendOutcome : SendOutcome


/-- Result of one `ask_llm` call (llm.py lines 224-239): a successful call
returns the provider's dict; a timeout or any other failure returns `{}`. -/
inductive LLMOutcome where
  | success (d : PyDict)
  | timeout
  | failure


/-- `ask_llm`'s returned dict for each outcome. -/
def askLLM : LLMOutcome → PyDict
  | .success d => d
  | .timeout => []
  | .failure => []

/-- `Ranking.rankItem` from the return of `ask_llm` onwards (ranking.py
lines 56-122).  Returns the new state and whether an exception propagated
out of the task (possible only in strict mode, line 121-122).
Reading a missing `score`/`description` key raises `KeyError` before the
append; a non-numeric `result["score"]` raises `TypeError` at the early-send
comparison, after the append.  `BrokenPipeError`/`ConnectionResetError`
from `send_answer` clears the alive event and is swallowed even in strict
mode (lines 111-113); any other send exception reaches the outer handler.
This coarse step runs the whole section atomically: it captures the
per-task sequential semantics and is used only for properties insensitive
to the interleavings at the awaits of lines 98 and 107; those are settled
against the fine-grained model below. -/
def rankItem (cfg : Cfg) (st : RState) (run : ItemRun) : RState × Bool :=
  match dictGet run.llmResponse "score", dictGet run.llmResponse "description" with
  | some score, some description =>
    let result := buildResult run.schemaObject run.url run.name run.site score description
    let st1 := { st with rankedAnswers := st.rankedAnswers ++ [result] }
    match pyGtB (dictGet result "score") EARLY_SEND_THRESHOLD with
    | .error _ => (st1, cfg.strict)
    | .ok false => (st1, false)
    | .ok true =>
      if !st1.alive then (st1, false)
      else if st1.numResultsSent < cfg.maxResults then
        match run.sendOutcome with
        | .ok =>
          let result' := dictSet result "sent" (.vBool true)
          ({ st1 with
              rankedAnswers := st.rankedAnswers ++ [result'],
              numResultsSent := st1.numResultsSent + 1,
              sentLog := st1.sentLog ++ [(result', sendPayload result)] }, false)
        | .connError => ({ st1 with alive := false }, false)
        | .otherError => (st1, cfg.strict)
      else (st1, false)
  | _, _ => (st, cfg.strict)

/-- The unsent records of a list (`[r for r in answers if not r["sent"]]`). -/
def unsentOf (answers : List PyDict) : List PyDict :=
  answers.filter (fun r => !isSent r)

/-- `remaining_slots = max_results - self.num_results_sent`. -/
def remainingSlots (maxResults numSent : Nat) : Int :=
  (maxResults : Int) - (numSent : Int)

/-- The `to_send` list of `Ranking.sendRemainingAnswers` (lines 140-152):
empty when no slots remain, else the first `remaining_slots` unsent records. -/
def flushToSend (maxResults numSent : Nat) (answers : List PyDict) : List PyDict :=
  if remainingSlots maxResults numSent ≤ 0 then []
  else (unsentOf answers).take (remainingSlots maxResults numSent).toNat

/-- Index of the first failing `send_answer` call among the first `n`,
if any. -/
def firstFailure (f : Nat → SendOutcome) : Nat → Option Nat
  | 0 => none
  | n + 1 =>
    match firstFailure f n with
    | some i => some i
    | none => if f n ≠ .ok then some n else none

/-- Mark the first `n` unsent records of a list as sent, modelling the
in-place `result["sent"] = True` mutations of the flush loop. -/
def markFirstUnsent : Nat → List PyDict → List PyDict
  | _, [] => []
  | 0, l => l
  | n + 1, r :: rs =>
    if isSent r then r :: markFirstUnsent (n + 1) rs
    else dictSet r "sent" (.vBool true) :: markFirstUnsent n rs

/-- `Ranking.sendRemainingAnswers` (ranking.py lines 125-173).  `f i` is the
outcome of the `i`-th `send_answer` call of the flush loop; the loop stops at
the first failure, and both `except` clauses clear the alive event.  Returns
the new state together with the `answers` list as mutated in place. -/
def sendRemainingAnswers (maxResults : Nat) (st : RState) (answers : List PyDict)
    (f : Nat → SendOutcome) : RState × List PyDict :=
  if !st.alive then (st, answers)
  else
    let toSend := flushToSend maxResults st.numResultsSent answers
    let fail := firstFailure f toSend.length
    let okCount := fail.getD toSend.length
    let sentOnes := toSend.take okCount
    ({ st with
        numResultsSent := st.numResultsSent + okCount,
        sentLog := st.sentLog ++ sentOnes.map (fun r => (r, sendPayload r)),
        alive := if fail.isSome then false else st.alive },
     markFirstUnsent okCount answers)

/-- One occurrence on the request timeline: a scoring task completing its
post-LLM section, or the handler observing the client connection die. -/
inductive Event where
  | item (run : ItemRun)
  | connLost

/-- Effect of one event on the request state.  `Ranking.do` launches the
tasks with `asyncio.gather(..., return_exceptions=True)`, so a task's
re-raised exception is captured in the gather results and discarded: only
the state effect of `rankItem` survives. -/
def stepEvent (cfg : Cfg) (st : RState) : Event → RState
  | .item run => (rankItem cfg st run).1
  | .connLost => { st with alive := false }

/-- The fan-out/fan-in phase of `Ranking.do` (lines 178-191): the scoring
tasks complete in the order of the event list, each post-LLM section taken
as one step (the sequentialized schedules of the fine-grained model). -/
def runEvents (cfg : Cfg) (st : RState) (evs : List Event) : RState :=
  evs.foldl (stepEvent cfg) st

/-- The list comprehension of `Ranking.do` line 210
(`[r for r in self.rankedAnswers if r['score'] > min_score_threshold]`);
a non-numeric or missing `score` raises `TypeError`/`KeyError` out of
`Ranking.do`. -/
def pyFilterGtScore (minScore : Int) : List PyDict → Except Unit (List PyDict)
  | [] => .ok []
  | r :: rs =>
    match pyGtB (dictGet r "score") minScore with
    | .error e => .error e
    | .ok b =>
      match pyFilterGtScore minScore rs with
      | .error e => .error e
      | .ok rest => .ok (if b then r :: rest else rest)

/-- The integer sort key of a record (`key=lambda x: x["score"]`); the
default is irrelevant: every record reaching the sort passed the
`score > min_score` comparison, so its score is numeric. -/
def scoreKey (r : PyDict) : Int :=
  ((dictGet r "score").bind pyIntVal).getD 0

/-- Comparison used to model `sorted(filtered, key=..., reverse=True)`:
CPython's sort is stable and `reverse=True` reverses only the comparison,
so the result is the stable sort under descending score. -/
def scoreDescLe (a b : PyDict) : Bool :=
  decide (scoreKey b ≤ scoreKey a)

/-- `ranked = sorted(filtered, key=lambda x: x["score"], reverse=True)`. -/
def sortByScoreDesc (l : List PyDict) : List PyDict :=
  l.mergeSort scoreDescLe

/-- The tail of `Ranking.do` after the gather joins (lines 193-224): early
return when the connection died, else filter, sort, store the truncated
final set in `handler.final_ranked_answers`, and flush the sorted list
through `sendRemainingAnswers`.  The second component reports whether an
exception escaped `Ranking.do` (only the `TypeError`/`KeyError` of the
score filter can: `sendRemainingAnswers` catches all its own exceptions). -/
def doTail (cfg : Cfg) (st : RState) (f : Nat → SendOutcome) : RState × Bool :=
  if !st.alive then (st, false)
  else
    match pyFilterGtScore cfg.minScore st.rankedAnswers with
    | .error _ => (st, true)
    | .ok filtered =>
      let ranked := sortByScoreDesc filtered
      let st1 := { st with finalRankedAnswers := some (ranked.take cfg.maxResults) }
      ((sendRemainingAnswers cfg.maxResults st1 ranked f).1, false)

/-- The state of a fresh `Ranking` object with a live connection
(`__init__`, lines 40-47). -/
def initState : RState :=
  { rankedAnswers := [], numResultsSent := 0, alive := true,
    finalRankedAnswers := none, sentLog := [] }

/-- A whole `Ranking.do` call: fan-out over the events, then the final
filter/sort/flush tail.  `f` gives the outcomes of the flush's
`send_answer` calls. -/
def doRun (cfg : Cfg) (evs : List Event) (f : Nat → SendOutcome) : RState × Bool :=
  doTail cfg (runEvents cfg initState evs) f

/-- The final-flush step as the specification states it: truncate the
sorted qualifying list to the first `maxResults` entries, keep its
not-yet-delivered entries, and deliver up to
`slots = maxResults - deliveredCount` of them in order, nothing when
`slots ≤ 0`. -/
def specFlushRemaining (maxResults numSent : Nat) (answers : List PyDict) : List PyDict :=
  let truncated := answers.take maxResults
  let remaining := unsentOf truncated
  if remainingSlots maxResults numSent ≤ 0 then []
  else remaining.take (remainingSlots maxResults numSent).toNat

/-! ### Fine-grained interleaving model of the early-send section

`rankItem` above runs a task's whole post-LLM section as one step.  The
source, however, suspends inside that section: between the alive check of
line 94 and the delivery there are two `await`s — the
`pre_checks_done_event.wait()` of line 98 and the `send_answer` call of
line 107 — and the quota check of line 104 is separated from the counter
increment of line 109 by the awaited send, with no lock.  The model below
cuts the section exactly at those awaits, so that the asyncio event loop's
interleavings of concurrent scoring tasks are representable. -/

/-- A request state together with the suspended early-send continuations:
`waitingPre` holds the positions (in `rankedAnswers`) of records whose
tasks passed the threshold and alive checks and are parked at the
`pre_checks_done_event.wait()` of line 98; `inSend` holds those whose
tasks passed the quota check of line 104 and are suspended inside the
`send_answer` call of line 107. -/
structure FState where
  st : RState
  waitingPre : List Nat
  inSend : List Nat

/-- One atomic segment of the single-threaded event loop: a task runs its
post-LLM code up to the first await (`score`), a parked task's pre-checks
wait returns and it runs up to the send (`preDone i`), a suspended send
completes with some outcome (`sendDone i`), or the connection-alive event
is cleared externally (`connLost`). -/
inductive FEvent where
  | score (run : ItemRun)
  | preDone (i : Nat)
  | sendDone (i : Nat) (outcome : SendOutcome)
  | connLost

/-- Segment 1 of `rankItem` (lines 56-98): build and append the record,
evaluate the early-send threshold, check the alive event once (line 94),
and, for a live above-threshold record, suspend at the pre-checks wait.
Below-threshold, dead-connection and scoring-failure tasks finish here. -/
def fstepScore (fs : FState) (run : ItemRun) : FState :=
  match dictGet run.llmResponse "score", dictGet run.llmResponse "description" with
  | some sv, some dv =>
    let result := buildResult run.schemaObject run.url run.name run.site sv dv
    let i := fs.st.rankedAnswers.length
    let st1 := { fs.st with rankedAnswers := fs.st.rankedAnswers ++ [result] }
    match pyGtB (dictGet result "score") EARLY_SEND_THRESHOLD with
    | .ok true =>
      if st1.alive then { fs with st := st1, waitingPre := fs.waitingPre ++ [i] }
      else { fs with st := st1 }
    | _ => { fs with st := st1 }
  | _, _ => fs

/-- Segment 2 (lines 101-107): the pre-checks wait of the task holding
record `i` returns; it reads `max_results`, checks
`num_results_sent < max_results` against the *current* counter — with no
alive recheck — and either starts its `send_answer` (suspending) or
finishes without sending. -/
def fstepPreDone (cfg : Cfg) (fs : FState) (i : Nat) : FState :=
  if i ∈ fs.waitingPre then
    let fs1 := { fs with waitingPre := fs.waitingPre.erase i }
    if fs1.st.numResultsSent < cfg.maxResults then
      { fs1 with inSend := fs1.inSend ++ [i] }
    else fs1
  else fs

/-- Segment 3 (lines 108-113): the suspended `send_answer` of record `i`
returns.  On success the record is marked sent and the counter
incremented — these two writes are adjacent synchronous statements;
a connection error clears the alive event; any other error ends the task
without marking or counting. -/
def fstepSendDone (fs : FState) (i : Nat) (outcome : SendOutcome) : FState :=
  if i ∈ fs.inSend then
    let fs1 := { fs with inSend := fs.inSend.erase i }
    match outcome with
    | .ok =>
      match fs1.st.rankedAnswers.get? i with
      | some r =>
        { fs1 with st := { fs1.st with
            rankedAnswers := fs1.st.rankedAnswers.set i (dictSet r "sent" (.vBool true)),
            numResultsSent := fs1.st.numResultsSent + 1,
            sentLog := fs1.st.sentLog ++ [(dictSet r "sent" (.vBool true), sendPayload r)] } }
      | none => fs1
    | .connError => { fs1 with st := { fs1.st with alive := false } }
    | .otherError => fs1
  else fs

/-- One event-loop step. -/
def fstep (cfg : Cfg) (fs : FState) : FEvent → FState
  | .score run => fstepScore fs run
  | .preDone i => fstepPreDone cfg fs i
  | .sendDone i outcome => fstepSendDone fs i outcome
  | .connLost => { fs with st := { fs.st with alive := false } }

/-- A fresh request with no suspended tasks. -/
def finitState : FState := ⟨initState, [], []⟩

/-- A fine-grained schedule of the early-send phase: the event loop runs
the given segments in order. -/
def frun (cfg : Cfg) (evs : List FEvent) : FState :=
  evs.foldl (fstep cfg) finitState

/-- Python `repr` of a value, as used by `str` on containers. -/
def pyRepr : PyVal → String
  | .vNull => "None"
  | .vBool b => if b then "True" else "False"
  | .vInt n => toString n
  | .vStr s => "\x27" ++ s ++ "\x27"
  | .vList xs => "[" ++ String.intercalate ", " (xs.attach.map (fun v => pyRepr v.1)) ++ "]"
  | .vDict d =>
    "\x7b" ++
      String.intercalate ", "
        (d.attach.map (fun p => "\x27" ++ p.1.1 ++ "\x27: " ++ pyRepr p.1.2)) ++
    "\x7d"
decreasing_by
  · have := List.sizeOf_lt_of_mem v.2; simp at this ⊢; omega
  · obtain ⟨⟨k, vv⟩, hm⟩ := p
    have := List.sizeOf_lt_of_mem hm
    simp at this ⊢
    omega

/-- Python `str(v)`. -/
def pyStr : PyVal → String
  | .vStr s => s
  | v => pyRepr v

/-- The field names probed by `PostQueryProcessing._extract_address`
(postQueryProcessing.py line 85). -/
def addressFieldNames : List String :=
  ["address", "location", "streetAddress", "postalAddress"]

/-- The `for field in [...]: if field in result: address = result[field]; break`
loop: value of the first present field. -/
def lookupFirstField (result : PyDict) : List String → Option PyVal
  | [] => none
  | fld :: rest =>
    match dictGet result fld with
    | some v => some v
    | none => lookupFirstField result rest

/-- The longest prefix of a character list strictly before the first
occurrence of the separator — `s.split(sep)[0]` at character level. -/
def pyCharsBeforeSep (sep : List Char) : List Char → List Char
  | [] => []
  | c :: rest =>
    if List.isPrefixOf sep (c :: rest) then []
    else c :: pyCharsBeforeSep sep rest

/-- `address.split(", {")[0]` applied when `"{" in address`
(postQueryProcessing.py lines 94-95), over the string's characters. -/
def cleanStrAddress (s : String) : String :=
  if s.data.contains (Char.ofNat 123) then
    String.mk (pyCharsBeforeSep ", \x7b".data s.data)
  else s

/-- The four plain sub-fields collected from a dict-valued address
(lines 99-104): present, non-dict values, rendered with `str`. -/
def dictAddressParts (d : PyDict) : List String :=
  ["streetAddress", "addressLocality", "addressRegion", "postalCode"].filterMap
    (fun fld =>
      match dictGet d fld with
      | some (.vDict _) => none
      | some v => some (pyStr v)
      | none => none)

/-- The `addressCountry` contribution (lines 107-112): the raw `name` value
of a dict-valued country, or a string country not starting with a brace. -/
def addressCountryPart (d : PyDict) : Option PyVal :=
  match dictGet d "addressCountry" with
  | some (.vDict cd) => dictGet cd "name"
  | some (.vStr s) =>
    if List.isPrefixOf "\x7b".data s.data then none else some (.vStr s)
  | _ => none

/-- `', '.join(address_parts)`: raises `TypeError` when a part is not a
string (possible only for a non-string country `name`). -/
def pyJoinStrs : List PyVal → Except Unit (List String)
  | [] => .ok []
  | .vStr s :: rest =>
    match pyJoinStrs rest with
    | .error e => .error e
    | .ok ss => .ok (s :: ss)
  | _ :: _ => .error ()

/-- `PostQueryProcessing._extract_address` (lines 79-119).  `.error` marks
an escaping `TypeError`; `.ok none` is Python `None`. -/
def extractAddress (result : PyDict) : Except Unit (Option PyVal) :=
  match lookupFirstField result addressFieldNames with
  | none => .ok none
  | some address =>
    if !pyTruthy address then .ok none
    else
      match address with
      | .vStr s => .ok (some (.vStr (cleanStrAddress s)))
      | .vDict d =>
        let parts := (dictAddressParts d).map PyVal.vStr ++ (addressCountryPart d).toList
        if parts.isEmpty then .ok none
        else
          match pyJoinStrs parts with
          | .error e => .error e
          | .ok ss => .ok (some (.vStr (String.intercalate ", " ss)))
      | v => .ok (some v)

/-- The `results_with_addresses` list of `check_and_send_map_message`
(lines 52-61), in final-set order: for each result whose extracted address
is truthy, the pair of its `name` value (default `'Unnamed'`) and the
address rendered with `str`. -/
def locationsOf : List PyDict → Except Unit (List (PyVal × String))
  | [] => .ok []
  | r :: rest =>
    match extractAddress r with
    | .error e => .error e
    | .ok none => locationsOf rest
    | .ok (some a) =>
      match locationsOf rest with
      | .error e => .error e
      | .ok locs =>
        if pyTruthy a then
          .ok (((dictGet r "name").getD (.vStr "Unnamed"), pyStr a) :: locs)
        else .ok locs

/-- Observable outcome of `check_and_send_map_message`: either nothing, or
exactly one synthetic `LocationMap` record carrying the locations list. -/
inductive MapOutcome where
  | noMessage
  | message (locations : List (PyVal × String))

/-- `PostQueryProcessing.check_and_send_map_message` (lines 42-77): return
early on an empty final set; swallow any exception; otherwise send one
`LocationMap` record exactly when
`results_with_addr_count >= total_results / 2 and results_with_addr_count > 0`
(stated over integers as `2 * count ≥ total`). -/
def checkAndSendMapMessage (finalRankedAnswers : List PyDict) : MapOutcome :=
  if finalRankedAnswers.isEmpty then .noMessage
  else
    match locationsOf finalRankedAnswers with
    | .error _ => .noMessage
    | .ok locs =>
      if 2 * locs.length ≥ finalRankedAnswers.length ∧ 0 < locs.length then
        .message locs
      else .noMessage

/-- Boolean form of the filter predicate of `Ranking.do` line 210. -/
def passesMinScore (m : Int) (r : PyDict) : Bool :=
  match pyGtB (dictGet r "score") m with
  | .ok true => true
  | _ => false

/-- Every logged delivery carries a numeric score exceeding the early-send
threshold (early deliveries) or the `min_score` floor (flush deliveries). -/
def sentScoresOk (cfg : Cfg) (st : RState) : Prop :=
  ∀ e ∈ st.sentLog, ∃ m : Int,
    (dictGet e.1 "score").bind pyIntVal = some m ∧
    (EARLY_SEND_THRESHOLD < m ∨ cfg.minScore < m)

/-! ### Dictionary lemmas -/

theorem dictGet_append (d₁ d₂ : PyDict) (k : String) :
    dictGet (d₁ ++ d₂) k = ((dictGet d₁ k).or (dictGet d₂ k)) := by
  induction d₁ with
  | nil => simp [dictGet]
  | cons p rest ih =>
    obtain ⟨k', v⟩ := p
    by_cases h : k' = k <;> simp [dictGet, h, ih]

theorem dictGet_overwrite_self (d : PyDict) (k : String) (v : PyVal) :
    dictGet (d.map (fun p => if p.1 = k then (k, v) else p)) k
      = if dictHas d k then some v else none := by
  induction d with
  | nil => simp [dictGet, dictHas]
  | cons p rest ih =>
    obtain ⟨k₀, v₀⟩ := p
    simp only [List.map_cons]
    by_cases hk : k₀ = k
    · subst hk
      rw [if_pos rfl]
      simp [dictGet, dictHas]
    · rw [if_neg hk]
      simp [dictGet, dictHas, hk, ih]

theorem dictGet_overwrite_ne (d : PyDict) (k k' : String) (v : PyVal) (h : k' ≠ k) :
    dictGet (d.map (fun p => if p.1 = k then (k, v) else p)) k' = dictGet d k' := by
  induction d with
  | nil => simp
  | cons p rest ih =>
    obtain ⟨k₀, v₀⟩ := p
    simp only [List.map_cons]
    by_cases hk : k₀ = k
    · subst hk
      rw [if_pos rfl]
      have hne : ¬ (k₀ = k') := fun hc => h hc.symm
      simp [dictGet, hne, ih]
    · rw [if_neg hk]
      by_cases hk' : k₀ = k' <;> simp [dictGet, hk', ih]

theorem dictGet_dictSet_self (d : PyDict) (k : String) (v : PyVal) :
    dictGet (dictSet d k v) k = some v := by
  unfold dictSet
  by_cases h : dictHas d k
  · simp [h, dictGet_overwrite_self]
  · have hnone : dictGet d k = none := by
      cases hd : dictGet d k
      · rfl
      · exact absurd (by simp [dictHas, hd]) h
    simp [h, dictGet_append, hnone, dictGet]

theorem dictGet_dictSet_ne (d : PyDict) (k k' : String) (v : PyVal) (h : k' ≠ k) :
    dictGet (dictSet d k v) k' = dictGet d k' := by
  unfold dictSet
  by_cases hh : dictHas d k
  · simp [hh, dictGet_overwrite_ne _ _ _ _ h]
  · have hne : ¬ (k = k') := fun hc => h hc.symm
    simp [hh, dictGet_append, dictGet, hne]

theorem isSent_dictSet_sent (r : PyDict) :
    isSent (dictSet r "sent" (.vBool true)) = true := by
  simp [isSent, dictGet_dictSet_self, pyTruthy]

theorem dictGet_score_dictSet_sent (r : PyDict) (v : PyVal) :
    dictGet (dictSet r "sent" v) "score" = dictGet r "score" :=
  dictGet_dictSet_ne r "sent" "score" v (by decide)

theorem scoreKey_dictSet_sent (r : PyDict) (v : PyVal) :
    scoreKey (dictSet r "sent" v) = scoreKey r := by
  simp [scoreKey, dictGet_score_dictSet_sent]

theorem dictGet_eq_none_iff (d : PyDict) (k : String) :
    dictGet d k = none ↔ ∀ p ∈ d, p.1 ≠ k := by
  induction d with
  | nil => simp [dictGet]
  | cons p rest ih =>
    obtain ⟨k₀, v₀⟩ := p
    by_cases hk : k₀ = k <;> simp [dictGet, hk, ih]

theorem dictGet_foldl_attrs (l : List (String × PyVal)) (acc : PyDict) (k : String)
    (h : ∀ p ∈ l, p.1 ≠ k) :
    dictGet (l.foldl (fun acc p => if p.1 = "url" then acc else dictSet acc p.1 p.2) acc) k
      = dictGet acc k := by
  induction l generalizing acc with
  | nil => rfl
  | cons p rest ih =>
    obtain ⟨k₀, v₀⟩ := p
    have hk : k₀ ≠ k := h (k₀, v₀) (List.mem_cons_self _ _)
    have hrest : ∀ p ∈ rest, p.1 ≠ k := fun p hp => h p (List.mem_cons_of_mem _ hp)
    simp only [List.foldl_cons]
    by_cases hu : k₀ = "url"
    · rw [if_pos hu]
      exact ih acc hrest
    · rw [if_neg hu]
      rw [ih _ hrest, dictGet_dictSet_ne _ _ _ _ (fun hc => hk hc.symm)]

/-- A record built from a schema object without a `sent` attribute starts
unsent. -/
theorem dictGet_sent_buildResult (so : PyDict) (url name site : String)
    (sc d : PyVal) (h : dictGet so "sent" = none) :
    dictGet (buildResult so url name site sc d) "sent" = some (.vBool false) := by
  have hnos : ∀ p ∈ so, p.1 ≠ "sent" := (dictGet_eq_none_iff so "sent").mp h
  have hbase : dictGet (buildResult so url name site sc d) "sent"
      = some (.vBool false) := by
    unfold buildResult
    simp only []
    have hattrs := dictGet_foldl_attrs so
      [("@type", (dictGet so "@type").getD (.vStr "Item")),
       ("url", .vStr url), ("name", .vStr name), ("site", .vStr site),
       ("score", sc), ("description", d), ("sent", .vBool false)] "sent" hnos
    cases hg : pyOrOpt (dictGet so "url") (dictGet so "@id") with
    | none =>
      simp only [hg]
      rw [hattrs]
      simp [dictGet]
    | some g =>
      simp only [hg]
      by_cases ht : pyTruthy g
      · rw [if_pos ht, dictGet_dictSet_ne _ _ _ _ (by decide), hattrs]
        simp [dictGet]
      · rw [if_neg ht, hattrs]
        simp [dictGet]
  exact hbase

theorem passesMinScore_iff (m : Int) (r : PyDict) :
    passesMinScore m r = true ↔ pyGtB (dictGet r "score") m = .ok true := by
  unfold passesMinScore
  cases h : pyGtB (dictGet r "score") m with
  | error e => simp
  | ok b => cases b <;> simp

/-- When the comprehension of line 210 completes without a `TypeError`, it
is exactly the filter under `score > min_score`. -/
theorem pyFilterGtScore_ok_eq_filter {m : Int} {l fl : List PyDict}
    (h : pyFilterGtScore m l = .ok fl) :
    fl = l.filter (passesMinScore m) := by
  induction l generalizing fl with
  | nil =>
    simp [pyFilterGtScore] at h
    simp [h]
  | cons r rs ih =>
    unfold pyFilterGtScore at h
    cases hgt : pyGtB (dictGet r "score") m with
    | error e => simp [hgt] at h
    | ok b =>
      simp only [hgt] at h
      cases hrec : pyFilterGtScore m rs with
      | error e => simp [hrec] at h
      | ok rest =>
        simp only [hrec] at h
        have hrest := ih hrec
        cases b with
        | true =>
          simp at h
          have hp : passesMinScore m r = true := (passesMinScore_iff m r).mpr hgt
          simp [← h, List.filter_cons, hp, hrest]
        | false =>
          simp at h
          have hp : passesMinScore m r = false := by
            unfold passesMinScore
            rw [hgt]
          simp [← h, List.filter_cons, hp, hrest]

theorem pyFilterGtScore_ok_sublist {m : Int} {l fl : List PyDict}
    (h : pyFilterGtScore m l = .ok fl) : List.Sublist fl l := by
  rw [pyFilterGtScore_ok_eq_filter h]
  exact List.filter_sublist l

theorem pyFilterGtScore_ok_mem {m : Int} {l fl : List PyDict}
    (h : pyFilterGtScore m l = .ok fl) :
    ∀ r ∈ fl, pyGtB (dictGet r "score") m = .ok true ∧ r ∈ l := by
  intro r hr
  rw [pyFilterGtScore_ok_eq_filter h] at hr
  have := List.mem_filter.mp hr
  exact ⟨(passesMinScore_iff m r).mp this.2, this.1⟩

/-! ### Sorting lemmas -/

theorem scoreDescLe_trans : ∀ a b c : PyDict,
    scoreDescLe a b → scoreDescLe b c → scoreDescLe a c := by
  intro a b c hab hbc
  simp only [scoreDescLe, decide_eq_true_eq] at *
  omega

theorem scoreDescLe_total : ∀ a b : PyDict, scoreDescLe a b || scoreDescLe b a := by
  intro a b
  simp only [scoreDescLe]
  rcases le_total (scoreKey b) (scoreKey a) with h | h <;> simp [h]

theorem sortByScoreDesc_perm (l : List PyDict) :
    List.Perm (sortByScoreDesc l) l :=
  List.mergeSort_perm l _

theorem sortByScoreDesc_mem (l : List PyDict) (r : PyDict) :
    r ∈ sortByScoreDesc l ↔ r ∈ l :=
  List.mem_mergeSort

theorem sortByScoreDesc_sorted (l : List PyDict) :
    (sortByScoreDesc l).Pairwise (fun a b => scoreKey b ≤ scoreKey a) := by
  have h := @List.sorted_mergeSort PyDict scoreDescLe scoreDescLe_trans scoreDescLe_total l
  exact h.imp (fun hab => by simpa [scoreDescLe] using hab)

theorem sortByScoreDesc_stable (l : List PyDict) (c : Int) :
    (sortByScoreDesc l).filter (fun r => scoreKey r == c)
      = l.filter (fun r => scoreKey r == c) := by
  have hpair : (l.filter (fun r => scoreKey r == c)).Pairwise
      (fun a b => scoreDescLe a b = true) := by
    apply List.pairwise_of_forall_mem_list
    intro a ha b hb
    have ha' : scoreKey a = c := by simpa using (List.mem_filter.mp ha).2
    have hb' : scoreKey b = c := by simpa using (List.mem_filter.mp hb).2
    simp [scoreDescLe, ha', hb']
  have h1 : List.Sublist (l.filter (fun r => scoreKey r == c)) (sortByScoreDesc l) :=
    List.sublist_mergeSort scoreDescLe_trans scoreDescLe_total hpair (List.filter_sublist l)
  have h2 := h1.filter (fun r => scoreKey r == c)
  rw [List.filter_filter] at h2
  have hfix : (fun a => ((scoreKey a == c) && (scoreKey a == c))) =
      (fun r : PyDict => scoreKey r == c) := by
    funext a
    exact Bool.and_self _
  rw [hfix] at h2
  have hlen : ((sortByScoreDesc l).filter (fun r => scoreKey r == c)).length
      = (l.filter (fun r => scoreKey r == c)).length := by
    rw [← List.countP_eq_length_filter, ← List.countP_eq_length_filter]
    exact (sortByScoreDesc_perm l).countP_eq _
  exact (h2.eq_of_length hlen.symm).symm

/-! ### Flush lemmas -/

theorem unsentOf_markFirstUnsent (n : Nat) (l : List PyDict) :
    unsentOf (markFirstUnsent n l) = (unsentOf l).drop n := by
  induction l generalizing n with
  | nil => cases n <;> simp [markFirstUnsent, unsentOf]
  | cons r rs ih =>
    cases n with
    | zero => simp [markFirstUnsent, unsentOf]
    | succ n =>
      by_cases hs : isSent r
      · have hm : markFirstUnsent (n + 1) (r :: rs)
            = r :: markFirstUnsent (n + 1) rs := by
          simp [markFirstUnsent, hs]
        have h1 : unsentOf (r :: markFirstUnsent (n + 1) rs)
            = unsentOf (markFirstUnsent (n + 1) rs) := by
          simp [unsentOf, List.filter_cons, hs]
        have h2 : unsentOf (r :: rs) = unsentOf rs := by
          simp [unsentOf, List.filter_cons, hs]
        rw [hm, h1, h2, ih]
      · have hm : markFirstUnsent (n + 1) (r :: rs)
            = dictSet r "sent" (.vBool true) :: markFirstUnsent n rs := by
          simp [markFirstUnsent, hs]
        have h1 : unsentOf (dictSet r "sent" (.vBool true) :: markFirstUnsent n rs)
            = unsentOf (markFirstUnsent n rs) := by
          simp [unsentOf, List.filter_cons, isSent_dictSet_sent]
        have h2 : unsentOf (r :: rs) = r :: unsentOf rs := by
          simp [unsentOf, List.filter_cons, hs]
        rw [hm, h1, h2, ih, List.drop_succ_cons]

theorem firstFailure_lt {f : Nat → SendOutcome} {n i : Nat}
    (h : firstFailure f n = some i) : i < n := by
  induction n generalizing i with
  | zero => simp [firstFailure] at h
  | succ n ih =>
    unfold firstFailure at h
    cases hrec : firstFailure f n with
    | some j =>
      rw [hrec] at h
      obtain rfl := Option.some.inj h
      exact Nat.lt_succ_of_lt (ih hrec)
    | none =>
      rw [hrec] at h
      by_cases hf : f n ≠ .ok
      · rw [if_pos hf] at h
        obtain rfl := Option.some.inj h
        exact Nat.lt_succ_self _
      · rw [if_neg hf] at h
        simp at h

theorem firstFailure_eq_none {f : Nat → SendOutcome} {n : Nat}
    (h : ∀ i < n, f i = .ok) : firstFailure f n = none := by
  induction n with
  | zero => rfl
  | succ n ih =>
    unfold firstFailure
    rw [ih (fun i hi => h i (Nat.lt_succ_of_lt hi))]
    rw [if_neg (by simpa using h n (Nat.lt_succ_self n))]

theorem firstFailure_eq_some {f : Nat → SendOutcome} {n k : Nat}
    (hk : k < n) (hok : ∀ i < k, f i = .ok) (hfail : f k ≠ .ok) :
    firstFailure f n = some k := by
  induction n with
  | zero => omega
  | succ n ih =>
    unfold firstFailure
    by_cases hkn : k < n
    · rw [ih hkn]
    · have hk_eq : k = n := by omega
      subst hk_eq
      rw [firstFailure_eq_none hok, if_pos hfail]

theorem countP_not_isSent_add (l : List PyDict) :
    l.countP (fun r => !isSent r) + l.countP isSent = l.length := by
  induction l with
  | nil => rfl
  | cons r rs ih =>
    by_cases hs : isSent r <;>
      simp [List.countP_cons, hs, ← ih] <;> omega

theorem filter_take_eq_take_filter (q : PyDict → Bool) (l : List PyDict) (m t : Nat)
    (h : t ≤ ((l.take m).filter q).length) :
    (l.filter q).take t = ((l.take m).filter q).take t := by
  conv_lhs => rw [← List.take_append_drop m l]
  rw [List.filter_append, List.take_append_of_le_length h]

/-- Core refinement fact of the final flush: provided every `sent` mark in
the truncated top segment is accounted for by the delivered counter, taking
the first `maxResults - numSent` unsent records of the whole sorted list
(what the code does) equals taking them from the truncated top-`maxResults`
segment (what the specification describes). -/
theorem flushToSend_eq_spec (maxResults numSent : Nat) (answers : List PyDict)
    (h : (answers.take maxResults).countP isSent ≤ numSent) :
    flushToSend maxResults numSent answers
      = specFlushRemaining maxResults numSent answers := by
  unfold flushToSend specFlushRemaining
  by_cases hs : remainingSlots maxResults numSent ≤ 0
  · simp [hs]
  · rw [if_neg hs, if_neg hs]
    have hlt : numSent < maxResults := by
      unfold remainingSlots at hs
      omega
    have htoNat : (remainingSlots maxResults numSent).toNat = maxResults - numSent := by
      unfold remainingSlots
      omega
    by_cases hlen : answers.length ≤ maxResults
    · rw [List.take_of_length_le hlen]
    · unfold unsentOf
      apply filter_take_eq_take_filter
      have hcnt := countP_not_isSent_add (answers.take maxResults)
      have hlen' : (answers.take maxResults).length = maxResults := by
        simp [List.length_take]
        omega
      rw [← List.countP_eq_length_filter, htoNat]
      omega

theorem specFlushRemaining_subset (maxResults numSent : Nat) (answers : List PyDict) :
    ∀ r ∈ specFlushRemaining maxResults numSent answers, r ∈ answers.take maxResults := by
  intro r hr
  unfold specFlushRemaining at hr
  by_cases hs : remainingSlots maxResults numSent ≤ 0
  · rw [if_pos hs] at hr
    simp at hr
  · rw [if_neg hs] at hr
    have h1 := List.mem_of_mem_take hr
    exact (List.mem_filter.mp h1).1

/-! ### Case characterization of rankItem -/

/-- Complete case analysis of one scoring task: either the item was scored
and the task ends in exactly one of the send / connection-error /
other-send-error / no-early-send shapes, or the response lacked a
`score`/`description` key and the item was dropped before the append. -/
theorem rankItem_spec (cfg : Cfg) (st : RState) (run : ItemRun) :
    (∃ sv dv,
      dictGet run.llmResponse "score" = some sv ∧
      dictGet run.llmResponse "description" = some dv ∧
      (let result := buildResult run.schemaObject run.url run.name run.site sv dv
       (((pyGtB (dictGet result "score") EARLY_SEND_THRESHOLD = .ok true ∧
          st.alive = true ∧ st.numResultsSent < cfg.maxResults) ∧
         run.sendOutcome = .ok ∧
         rankItem cfg st run =
           ({ st with
               rankedAnswers := st.rankedAnswers ++ [dictSet result "sent" (.vBool true)],
               numResultsSent := st.numResultsSent + 1,
               sentLog := st.sentLog ++
                 [(dictSet result "sent" (.vBool true), sendPayload result)] }, false)) ∨
        ((pyGtB (dictGet result "score") EARLY_SEND_THRESHOLD = .ok true ∧
          st.alive = true ∧ st.numResultsSent < cfg.maxResults) ∧
         run.sendOutcome = .connError ∧
         rankItem cfg st run =
           ({ st with
               rankedAnswers := st.rankedAnswers ++ [result],
               alive := false }, false)) ∨
        ((pyGtB (dictGet result "score") EARLY_SEND_THRESHOLD = .ok true ∧
          st.alive = true ∧ st.numResultsSent < cfg.maxResults) ∧
         run.sendOutcome = .otherError ∧
         rankItem cfg st run =
           ({ st with
               rankedAnswers := st.rankedAnswers ++ [result] }, cfg.strict)) ∨
        (¬(pyGtB (dictGet result "score") EARLY_SEND_THRESHOLD = .ok true ∧
           st.alive = true ∧ st.numResultsSent < cfg.maxResults) ∧
         ∃ flag, rankItem cfg st run =
           ({ st with
               rankedAnswers := st.rankedAnswers ++ [result] }, flag) ∧
           (flag = true → cfg.strict = true))))) ∨
    ((dictGet run.llmResponse "score" = none ∨ dictGet run.llmResponse "description" = none) ∧
     rankItem cfg st run = (st, cfg.strict)) := by
  cases hs : dictGet run.llmResponse "score" with
  | none =>
    right
    refine ⟨Or.inl rfl, ?_⟩
    unfold rankItem
    rw [hs]
  | some sv =>
    cases hd : dictGet run.llmResponse "description" with
    | none =>
      right
      refine ⟨Or.inr rfl, ?_⟩
      unfold rankItem
      rw [hs, hd]
    | some dv =>
      left
      refine ⟨sv, dv, rfl, rfl, ?_⟩
      simp only []
      cases hgt : pyGtB (dictGet (buildResult run.schemaObject run.url run.name run.site sv dv) "score") EARLY_SEND_THRESHOLD with
      | error e =>
        refine Or.inr (Or.inr (Or.inr ⟨by simp [hgt], cfg.strict, ?_, fun h => h⟩))
        unfold rankItem
        rw [hs, hd]
        simp only [hgt]
      | ok b =>
        cases b with
        | false =>
          refine Or.inr (Or.inr (Or.inr ⟨by simp [hgt], false, ?_, by simp⟩))
          unfold rankItem
          rw [hs, hd]
          simp only [hgt]
        | true =>
          by_cases ha : st.alive
          · by_cases hq : st.numResultsSent < cfg.maxResults
            · cases hso : run.sendOutcome with
              | ok =>
                refine Or.inl ⟨⟨rfl, ha, hq⟩, rfl, ?_⟩
                unfold rankItem
                rw [hs, hd]
                simp only [hgt, ha, hso]
                simp [hq]
              | connError =>
                refine Or.inr (Or.inl ⟨⟨rfl, ha, hq⟩, rfl, ?_⟩)
                unfold rankItem
                rw [hs, hd]
                simp only [hgt, ha, hso]
                simp [hq]
              | otherError =>
                refine Or.inr (Or.inr (Or.inl ⟨⟨rfl, ha, hq⟩, rfl, ?_⟩))
                unfold rankItem
                rw [hs, hd]
                simp only [hgt, ha, hso]
                simp [hq]
            · refine Or.inr (Or.inr (Or.inr ⟨by simp [hq], false, ?_, by simp⟩))
              unfold rankItem
              rw [hs, hd]
              simp only [hgt, ha]
              simp [hq]
          · refine Or.inr (Or.inr (Or.inr ⟨by simp [ha], false, ?_, by simp⟩))
            unfold rankItem
            rw [hs, hd]
            simp only [hgt]
            simp [ha]

/-! ### The delivery-accounting invariant -/

theorem quotaInv_rankItem (cfg : Cfg) (st : RState) (run : ItemRun)
    (h1 : st.sentLog.length = st.numResultsSent)
    (h2 : st.numResultsSent ≤ cfg.maxResults) :
    (rankItem cfg st run).1.sentLog.length = (rankItem cfg st run).1.numResultsSent ∧
      (rankItem cfg st run).1.numResultsSent ≤ cfg.maxResults := by
  rcases rankItem_spec cfg st run with ⟨sv, dv, hs, hd, hcase⟩ | ⟨hmiss, heq⟩
  · simp only [] at hcase
    rcases hcase with ⟨⟨hgt, ha, hq⟩, hso, heq⟩ | ⟨hcond, hso, heq⟩ |
      ⟨hcond, hso, heq⟩ | ⟨hncond, flag, heq, hflag⟩
    · rw [heq]
      refine ⟨by simp [h1], ?_⟩
      simpa using hq
    · rw [heq]
      exact ⟨h1, h2⟩
    · rw [heq]
      exact ⟨h1, h2⟩
    · rw [heq]
      exact ⟨h1, h2⟩
  · rw [heq]
    exact ⟨h1, h2⟩

theorem quotaInv_stepEvent (cfg : Cfg) (st : RState) (ev : Event)
    (h1 : st.sentLog.length = st.numResultsSent)
    (h2 : st.numResultsSent ≤ cfg.maxResults) :
    (stepEvent cfg st ev).sentLog.length = (stepEvent cfg st ev).numResultsSent ∧
      (stepEvent cfg st ev).numResultsSent ≤ cfg.maxResults := by
  cases ev with
  | item run => exact quotaInv_rankItem cfg st run h1 h2
  | connLost => exact ⟨h1, h2⟩

theorem quotaInv_runEvents (cfg : Cfg) (evs : List Event) :
    ∀ st : RState, st.sentLog.length = st.numResultsSent →
      st.numResultsSent ≤ cfg.maxResults →
      (runEvents cfg st evs).sentLog.length = (runEvents cfg st evs).numResultsSent ∧
        (runEvents cfg st evs).numResultsSent ≤ cfg.maxResults := by
  induction evs with
  | nil => exact fun st h1 h2 => ⟨h1, h2⟩
  | cons ev evs ih =>
    intro st h1 h2
    have h := quotaInv_stepEvent cfg st ev h1 h2
    exact ih (stepEvent cfg st ev) h.1 h.2

theorem flushToSend_length_le (m s : Nat) (ans : List PyDict) :
    (flushToSend m s ans).length ≤ m - s := by
  unfold flushToSend
  by_cases hs : remainingSlots m s ≤ 0
  · simp [hs]
  · rw [if_neg hs]
    unfold remainingSlots at *
    simp only [List.length_take]
    omega

theorem okCount_le (f : Nat → SendOutcome) (n : Nat) :
    (firstFailure f n).getD n ≤ n := by
  cases h : firstFailure f n with
  | none => simp
  | some i => simpa using Nat.le_of_lt (firstFailure_lt h)

theorem quotaInv_sendRemaining (m : Nat) (st : RState) (answers : List PyDict)
    (f : Nat → SendOutcome)
    (h1 : st.sentLog.length = st.numResultsSent)
    (h2 : st.numResultsSent ≤ m) :
    (sendRemainingAnswers m st answers f).1.sentLog.length
        = (sendRemainingAnswers m st answers f).1.numResultsSent ∧
      (sendRemainingAnswers m st answers f).1.numResultsSent ≤ m := by
  unfold sendRemainingAnswers
  by_cases ha : st.alive
  · simp only [ha, Bool.not_true, Bool.false_eq_true, if_false]
    have hok := okCount_le f (flushToSend m st.numResultsSent answers).length
    have hlen := flushToSend_length_le m st.numResultsSent answers
    constructor
    · simp [h1, List.length_take]
      omega
    · omega
  · simp only [ha, Bool.not_false, if_true]
    exact ⟨h1, h2⟩

theorem quotaInv_doTail (cfg : Cfg) (st : RState) (f : Nat → SendOutcome)
    (h1 : st.sentLog.length = st.numResultsSent)
    (h2 : st.numResultsSent ≤ cfg.maxResults) :
    (doTail cfg st f).1.sentLog.length = (doTail cfg st f).1.numResultsSent ∧
      (doTail cfg st f).1.numResultsSent ≤ cfg.maxResults := by
  unfold doTail
  by_cases ha : st.alive
  · simp only [ha, Bool.not_true, Bool.false_eq_true, if_false]
    cases hf : pyFilterGtScore cfg.minScore st.rankedAnswers with
    | error e => exact ⟨h1, h2⟩
    | ok fl => exact quotaInv_sendRemaining cfg.maxResults _ _ f h1 h2
  · simp only [ha, Bool.not_false, if_true]
    exact ⟨h1, h2⟩

theorem sendRemaining_finalRankedAnswers (m : Nat) (st : RState)
    (answers : List PyDict) (f : Nat → SendOutcome) :
    (sendRemainingAnswers m st answers f).1.finalRankedAnswers
      = st.finalRankedAnswers := by
  unfold sendRemainingAnswers
  by_cases ha : st.alive <;> simp [ha]

theorem sendRemaining_rankedAnswers (m : Nat) (st : RState)
    (answers : List PyDict) (f : Nat → SendOutcome) :
    (sendRemainingAnswers m st answers f).1.rankedAnswers
      = st.rankedAnswers := by
  unfold sendRemainingAnswers
  by_cases ha : st.alive <;> simp [ha]

/-- C1 (failing schedule): the quota check of ranking.py line 104 and the
counter increment of line 109 are separated by the awaited `send_answer`
call of line 107, with no lock.  With `max_results = 1` and two items
scoring 80 and 70, the schedule in which both tasks pass the check before
either send completes leaves both suspended inside `send_answer` with the
counter still 0; when the two sends complete, two records have been
delivered and logged against a quota of 1 — while the sequential schedule
of the same two items delivers exactly one.  The specification prescribes
an atomic check-then-increment for this step; the code omits it, so the
delivered count can exceed `max_results`. -/
theorem c1_quota_check_not_atomic :
    (frun ⟨1, 51, false⟩
        [FEvent.score ⟨[], "ua", "na", "s",
           [("score", .vInt 80), ("description", .vStr "d")], SendOutcome.ok⟩,
         FEvent.score ⟨[], "ub", "nb", "s",
           [("score", .vInt 70), ("description", .vStr "d")], SendOutcome.ok⟩,
         FEvent.preDone 0, FEvent.preDone 1]).inSend = [0, 1] ∧
    (frun ⟨1, 51, false⟩
        [FEvent.score ⟨[], "ua", "na", "s",
           [("score", .vInt 80), ("description", .vStr "d")], SendOutcome.ok⟩,
         FEvent.score ⟨[], "ub", "nb", "s",
           [("score", .vInt 70), ("description", .vStr "d")], SendOutcome.ok⟩,
         FEvent.preDone 0, FEvent.preDone 1]).st.numResultsSent = 0 ∧
    (frun ⟨1, 51, false⟩
        [FEvent.score ⟨[], "ua", "na", "s",
           [("score", .vInt 80), ("description", .vStr "d")], SendOutcome.ok⟩,
         FEvent.score ⟨[], "ub", "nb", "s",
           [("score", .vInt 70), ("description", .vStr "d")], SendOutcome.ok⟩,
         FEvent.preDone 0, FEvent.preDone 1,
         FEvent.sendDone 0 SendOutcome.ok,
         FEvent.sendDone 1 SendOutcome.ok]).st.numResultsSent = 2 ∧
    (frun ⟨1, 51, false⟩
        [FEvent.score ⟨[], "ua", "na", "s",
           [("score", .vInt 80), ("description", .vStr "d")], SendOutcome.ok⟩,
         FEvent.score ⟨[], "ub", "nb", "s",
           [("score", .vInt 70), ("description", .vStr "d")], SendOutcome.ok⟩,
         FEvent.preDone 0, FEvent.preDone 1,
         FEvent.sendDone 0 SendOutcome.ok,
         FEvent.sendDone 1 SendOutcome.ok]).st.sentLog.length = 2 ∧
    ¬ (2 ≤ (⟨1, 51, false⟩ : Cfg).maxResults) ∧
    (frun ⟨1, 51, false⟩
        [FEvent.score ⟨[], "ua", "na", "s",
           [("score", .vInt 80), ("description", .vStr "d")], SendOutcome.ok⟩,
         FEvent.preDone 0, FEvent.sendDone 0 SendOutcome.ok,
         FEvent.score ⟨[], "ub", "nb", "s",
           [("score", .vInt 70), ("description", .vStr "d")], SendOutcome.ok⟩,
         FEvent.preDone 1, FEvent.sendDone 1 SendOutcome.ok]).st.numResultsSent = 1 :=
  ⟨rfl, rfl, rfl, rfl, by decide, rfl⟩

/-- C5 (counterexample): a task suspended past its alive check when the
connection dies still delivers.  The alive check of ranking.py line 94 is
separated from the delivery by the awaits of lines 98 and 107 with no
recheck: an item scoring 80 passes the check and parks at
`pre_checks_done_event.wait()`, the connection-loss signal then clears the
alive event, and the parked task nevertheless resumes, passes the quota
check and completes its send — one record is delivered after the clear,
against the claim that no further record is delivered once the alive
signal is cleared. -/
theorem c5_dead_connection_counterexample :
    (frun ⟨10, 51, false⟩
        [FEvent.score ⟨[], "ua", "na", "s",
           [("score", .vInt 80), ("description", .vStr "d")], SendOutcome.ok⟩,
         FEvent.connLost]).st.alive = false ∧
    (frun ⟨10, 51, false⟩
        [FEvent.score ⟨[], "ua", "na", "s",
           [("score", .vInt 80), ("description", .vStr "d")], SendOutcome.ok⟩,
         FEvent.connLost]).st.sentLog = [] ∧
    (frun ⟨10, 51, false⟩
        [FEvent.score ⟨[], "ua", "na", "s",
           [("score", .vInt 80), ("description", .vStr "d")], SendOutcome.ok⟩,
         FEvent.connLost, FEvent.preDone 0,
         FEvent.sendDone 0 SendOutcome.ok]).st.sentLog.length = 1 ∧
    (frun ⟨10, 51, false⟩
        [FEvent.score ⟨[], "ua", "na", "s",
           [("score", .vInt 80), ("description", .vStr "d")], SendOutcome.ok⟩,
         FEvent.connLost, FEvent.preDone 0,
         FEvent.sendDone 0 SendOutcome.ok]).st.alive = false :=
  ⟨rfl, rfl, rfl, rfl⟩

/-- C5 (amended): once the alive event is cleared it is never reset, and
every delivery step that begins after the clear delivers nothing: a
scoring task reaching the line-94 check appends its record but parks no
continuation (counter, delivery log, and both suspension pools unchanged),
every event leaves the alive flag cleared, the final flush returns
immediately without sending, and the tail of `Ranking.do` is a no-op.
Tasks already suspended past their alive check at the awaits of lines
98/107, however, may still deliver, since the code never rechecks — see
the counterexample above. -/
theorem c5_dead_connection_stops_delivery (cfg : Cfg) (fs : FState)
    (run : ItemRun) (ev : FEvent) (answers : List PyDict)
    (f : Nat → SendOutcome)
    (hdead : fs.st.alive = false) :
    ((fstepScore fs run).st.numResultsSent = fs.st.numResultsSent ∧
     (fstepScore fs run).st.sentLog = fs.st.sentLog ∧
     (fstepScore fs run).waitingPre = fs.waitingPre ∧
     (fstepScore fs run).inSend = fs.inSend ∧
     ∃ tail, (fstepScore fs run).st.rankedAnswers = fs.st.rankedAnswers ++ tail) ∧
    (fstep cfg fs ev).st.alive = false ∧
    sendRemainingAnswers cfg.maxResults fs.st answers f = (fs.st, answers) ∧
    doTail cfg fs.st f = (fs.st, false) := by
  have hscore : ∀ run' : ItemRun,
      (fstepScore fs run').st.numResultsSent = fs.st.numResultsSent ∧
      (fstepScore fs run').st.sentLog = fs.st.sentLog ∧
      (fstepScore fs run').waitingPre = fs.waitingPre ∧
      (fstepScore fs run').inSend = fs.inSend ∧
      (fstepScore fs run').st.alive = false ∧
      ∃ tail, (fstepScore fs run').st.rankedAnswers = fs.st.rankedAnswers ++ tail := by
    intro run'
    cases hs : dictGet run'.llmResponse "score" with
    | none => simp [fstepScore, hs, hdead]
    | some sv =>
      cases hd : dictGet run'.llmResponse "description" with
      | none => simp [fstepScore, hs, hd, hdead]
      | some dv =>
        cases hgt : pyGtB (dictGet (buildResult run'.schemaObject run'.url run'.name
            run'.site sv dv) "score") EARLY_SEND_THRESHOLD with
        | error e => simp [fstepScore, hs, hd, hgt, hdead]
        | ok b =>
          cases b with
          | false => simp [fstepScore, hs, hd, hgt, hdead]
          | true => simp [fstepScore, hs, hd, hgt, hdead]
  refine ⟨?_, ?_, ?_, ?_⟩
  · obtain ⟨h1, h2, h3, h4, _, h6⟩ := hscore run
    exact ⟨h1, h2, h3, h4, h6⟩
  · cases ev with
    | score run' => exact (hscore run').2.2.2.2.1
    | preDone i =>
      show (fstepPreDone cfg fs i).st.alive = false
      unfold fstepPreDone
      by_cases hi : i ∈ fs.waitingPre
      · rw [if_pos hi]
        by_cases hq : fs.st.numResultsSent < cfg.maxResults
        · rw [if_pos hq]
          exact hdead
        · rw [if_neg hq]
          exact hdead
      · rw [if_neg hi]
        exact hdead
    | sendDone i outcome =>
      show (fstepSendDone fs i outcome).st.alive = false
      unfold fstepSendDone
      by_cases hi : i ∈ fs.inSend
      · rw [if_pos hi]
        cases outcome with
        | ok =>
          cases hr : fs.st.rankedAnswers.get? i with
          | some r =>
            simp only [hr]
            exact hdead
          | none =>
            simp only [hr]
            exact hdead
        | connError => rfl
        | otherError => exact hdead
      · rw [if_neg hi]
        exact hdead
    | connLost => rfl
  · unfold sendRemainingAnswers
    simp [hdead]
  · unfold doTail
    simp [hdead]

/-- Concrete instantiation of `c5_dead_connection_stops_delivery`: over a
dead connection the flush sends nothing and leaves the state unchanged. -/
theorem c5_dead_connection_stops_delivery_witness :
    sendRemainingAnswers 10 ⟨[], 0, false, none, []⟩ []
        (fun _ => SendOutcome.ok)
      = (⟨[], 0, false, none, []⟩, []) :=
  (c5_dead_connection_stops_delivery ⟨10, 51, false⟩
    ⟨⟨[], 0, false, none, []⟩, [], []⟩
    ⟨[], "", "", "", [], SendOutcome.ok⟩ FEvent.connLost [] (fun _ => SendOutcome.ok)
    rfl).2.2.1

/-- C7 (failing input, strict mode): with
`CONFIG.should_raise_exceptions() = true` and a single item whose scoring
call timed out (`ask_llm` returned `{}`), the task's `rankItem` does
re-raise (flag `true`), but `Ranking.do` launches the tasks with
`asyncio.gather(..., return_exceptions=True)`, so the exception is captured
in the discarded gather results: `Ranking.do` completes normally (no
exception flag), stores a final result set, and its caller never observes
the failure — contradicting the documented intent of the re-raise. -/
theorem c7_strict_mode_swallowed :
    (rankItem ⟨10, 51, true⟩ initState ⟨[], "u", "n", "s", [], SendOutcome.ok⟩).2
        = true ∧
    (doRun ⟨10, 51, true⟩ [Event.item ⟨[], "u", "n", "s", [], SendOutcome.ok⟩]
        (fun _ => SendOutcome.ok)).2 = false ∧
    (doRun ⟨10, 51, true⟩ [Event.item ⟨[], "u", "n", "s", [], SendOutcome.ok⟩]
        (fun _ => SendOutcome.ok)).1.finalRankedAnswers = some [] := by
  refine ⟨rfl, rfl, ?_⟩
  rw [show doRun ⟨10, 51, true⟩
      [Event.item ⟨[], "u", "n", "s", [], SendOutcome.ok⟩]
      (fun _ => SendOutcome.ok)
      = doTail ⟨10, 51, true⟩ initState (fun _ => SendOutcome.ok) from rfl]
  unfold doTail
  rw [show pyFilterGtScore (51 : Int) initState.rankedAnswers = .ok [] from rfl]
  simp [initState, sendRemaining_finalRankedAnswers, sortByScoreDesc]

/-- C6: a failure of one item's scoring call is isolated to that item.
`ask_llm` converts a timeout into the empty response `{}`; a response
missing its `score` or `description` key makes `rankItem` drop the item
before the append with no exception in non-strict mode, and the whole
ranking run (any completion order, any neighbours, final flush included)
produces exactly the state it would have produced had the failing item not
existed — every other item is scored, appended, ranked and delivered
unchanged. -/
theorem c6_scoring_failure_isolated :
    askLLM LLMOutcome.timeout = ([] : PyDict) ∧
    ∀ (cfg : Cfg) (st : RState) (pre post : List Event) (run : ItemRun)
      (f : Nat → SendOutcome),
      cfg.strict = false →
      (dictGet run.llmResponse "score" = none ∨
        dictGet run.llmResponse "description" = none) →
      rankItem cfg st run = (st, false) ∧
      doRun cfg (pre ++ Event.item run :: post) f = doRun cfg (pre ++ post) f := by
  refine ⟨rfl, ?_⟩
  intro cfg st pre post run f hstrict hmiss
  have hrank : ∀ s : RState, rankItem cfg s run = (s, cfg.strict) := by
    intro s
    rcases rankItem_spec cfg s run with ⟨sv, dv, hs, hd, _⟩ | ⟨_, heq⟩
    · rcases hmiss with hm | hm
      · rw [hm] at hs
        exact absurd hs (by simp)
      · rw [hm] at hd
        exact absurd hd (by simp)
    · exact heq
  constructor
  · rw [hrank st, hstrict]
  · unfold doRun runEvents
    rw [List.foldl_append, List.foldl_append, List.foldl_cons]
    have hstep : stepEvent cfg (List.foldl (stepEvent cfg) initState pre)
        (Event.item run) = List.foldl (stepEvent cfg) initState pre := by
      show (rankItem cfg _ run).1 = _
      rw [hrank]
    rw [hstep]

/-- Concrete instantiation of `c6_scoring_failure_isolated`: a timed-out
item among one successful neighbour changes nothing. -/
theorem c6_scoring_failure_isolated_witness :
    rankItem ⟨10, 51, false⟩ initState ⟨[], "u", "n", "s", [], SendOutcome.ok⟩
      = (initState, false) :=
  ((c6_scoring_failure_isolated.2 ⟨10, 51, false⟩ initState []
    [Event.item ⟨[], "u2", "n2", "s2",
      [("score", .vInt 80), ("description", .vStr "d")], SendOutcome.ok⟩]
    ⟨[], "u", "n", "s", [], SendOutcome.ok⟩
    (fun _ => SendOutcome.ok) rfl (Or.inl rfl))).1

/-- C8 (counterexample): a below-threshold item whose document defines a
`sent` attribute does not remain a delivery candidate.  The attribute
merge of ranking.py lines 79-81 overwrites the internal `sent = False` of
line 75 with the document value: an item scoring 55 (not above the
threshold 59) is appended with no send — counter and delivery log
untouched — yet its record carries `sent = true`, so the unsent filter of
the final flush (line 140) skips it. -/
theorem c8_born_sent_counterexample :
    (rankItem ⟨10, 51, false⟩ initState
        ⟨[("sent", .vBool true)], "ua", "na", "s",
         [("score", .vInt 55), ("description", .vStr "d")], SendOutcome.ok⟩).1.rankedAnswers
      = [[("@type", .vStr "Item"), ("url", .vStr "ua"), ("name", .vStr "na"),
          ("site", .vStr "s"), ("score", .vInt 55), ("description", .vStr "d"),
          ("sent", .vBool true)]] ∧
    (rankItem ⟨10, 51, false⟩ initState
        ⟨[("sent", .vBool true)], "ua", "na", "s",
         [("score", .vInt 55), ("description", .vStr "d")], SendOutcome.ok⟩).1.numResultsSent
      = 0 ∧
    (rankItem ⟨10, 51, false⟩ initState
        ⟨[("sent", .vBool true)], "ua", "na", "s",
         [("score", .vInt 55), ("description", .vStr "d")], SendOutcome.ok⟩).1.sentLog
      = [] ∧
    pyGtB (some (.vInt 55)) EARLY_SEND_THRESHOLD = Except.ok false ∧
    dictGet [("@type", .vStr "Item"), ("url", .vStr "ua"), ("name", .vStr "na"),
        ("site", .vStr "s"), ("score", .vInt 55), ("description", .vStr "d"),
        ("sent", .vBool true)] "sent"
      = some (.vBool true) ∧
    unsentOf [[("@type", .vStr "Item"), ("url", .vStr "ua"), ("name", .vStr "na"),
        ("site", .vStr "s"), ("score", .vInt 55), ("description", .vStr "d"),
        ("sent", .vBool true)]]
      = [] := by
  exact ⟨rfl, rfl, rfl, rfl, rfl, rfl⟩

/-- C8 (amended): for a successfully scored item over a healthy transport
whose document does not define a `sent` attribute of its own, the early
send happens exactly when the record's score exceeds
`EARLY_SEND_THRESHOLD`, the connection is alive and
`num_results_sent < max_results` at the check; on delivery the transmitted
payload is every field of the record except the internal `sent` flag and
the raw `score`, the record is marked sent and the counter incremented;
otherwise the record is only appended and remains an unsent delivery
candidate for the final flush.  The no-`sent`-attribute proviso is
necessary: the merge of lines 79-81 otherwise overwrites the internal
flag, and a below-threshold record born sent is no candidate — see the
counterexample above. -/
theorem c8_early_send_iff (cfg : Cfg) (st : RState) (run : ItemRun) (sv dv : PyVal)
    (hs : dictGet run.llmResponse "score" = some sv)
    (hd : dictGet run.llmResponse "description" = some dv)
    (hsend : run.sendOutcome = SendOutcome.ok)
    (hnosent : dictGet run.schemaObject "sent" = none) :
    (let result := buildResult run.schemaObject run.url run.name run.site sv dv
     ((rankItem cfg st run).1.sentLog.length = st.sentLog.length + 1 ↔
        (pyGtB (dictGet result "score") EARLY_SEND_THRESHOLD = .ok true ∧
         st.alive = true ∧ st.numResultsSent < cfg.maxResults)) ∧
     ((pyGtB (dictGet result "score") EARLY_SEND_THRESHOLD = .ok true ∧
       st.alive = true ∧ st.numResultsSent < cfg.maxResults) →
        rankItem cfg st run =
          ({ st with
              rankedAnswers := st.rankedAnswers ++ [dictSet result "sent" (.vBool true)],
              numResultsSent := st.numResultsSent + 1,
              sentLog := st.sentLog ++
                [(dictSet result "sent" (.vBool true),
                  result.filter (fun p => !(p.1 == "sent" || p.1 == "score")))] },
            false)) ∧
     (¬(pyGtB (dictGet result "score") EARLY_SEND_THRESHOLD = .ok true ∧
        st.alive = true ∧ st.numResultsSent < cfg.maxResults) →
        (∃ flag, rankItem cfg st run =
          ({ st with
              rankedAnswers := st.rankedAnswers ++ [result] }, flag)) ∧
        dictGet result "sent" = some (.vBool false))) := by
  simp only []
  rcases rankItem_spec cfg st run with ⟨sv', dv', hs', hd', hcase⟩ | ⟨hmiss, _⟩
  · rw [hs] at hs'
    rw [hd] at hd'
    obtain rfl := Option.some.inj hs'
    obtain rfl := Option.some.inj hd'
    simp only [] at hcase
    rcases hcase with ⟨hcond, hso, heq⟩ | ⟨hcond, hso, heq⟩ |
      ⟨hcond, hso, heq⟩ | ⟨hncond, flag, heq, hflag⟩
    · refine ⟨?_, fun _ => ?_, fun hn => absurd hcond hn⟩
      · rw [heq]
        simp [hcond]
      · rw [heq]
        rfl
    · rw [hsend] at hso
      exact absurd hso (by simp)
    · rw [hsend] at hso
      exact absurd hso (by simp)
    · refine ⟨?_, fun hc => absurd hc hncond, fun _ => ?_⟩
      · rw [heq]
        simp [hncond]
      · exact ⟨⟨flag, heq⟩,
          dictGet_sent_buildResult run.schemaObject run.url run.name run.site sv dv hnosent⟩
  · rcases hmiss with hm | hm
    · rw [hm] at hs
      exact absurd hs (by simp)
    · rw [hm] at hd
      exact absurd hd (by simp)

/-- Concrete instantiation of `c8_early_send_iff`: a fresh request and an
item scoring 80 is delivered early. -/
theorem c8_early_send_iff_witness :
    (rankItem ⟨10, 51, false⟩ initState
      ⟨[], "u", "n", "s",
        [("score", .vInt 80), ("description", .vStr "d")],
        SendOutcome.ok⟩).1.sentLog.length = initState.sentLog.length + 1 :=
  ((c8_early_send_iff ⟨10, 51, false⟩ initState
      ⟨[], "u", "n", "s",
        [("score", .vInt 80), ("description", .vStr "d")],
        SendOutcome.ok⟩ (.vInt 80) (.vStr "d") rfl rfl rfl rfl).1).mpr
    ⟨rfl, rfl, by decide⟩

/-- C9: when the `i`-th send of the flush loop raises — any exception, not
only the connection errors — the flush stops there and clears the alive
event; the records sent before the failure are logged and counted, in
order, and the record whose send raised (the `k`-th unsent one) stays
unsent: the unsent records afterwards are exactly the old unsent records
with the first `k` removed. -/
theorem c9_flush_send_failure (maxResults : Nat) (st : RState)
    (answers : List PyDict) (f : Nat → SendOutcome) (k : Nat)
    (halive : st.alive = true)
    (hk : k < (flushToSend maxResults st.numResultsSent answers).length)
    (hok : ∀ i < k, f i = SendOutcome.ok)
    (hfail : f k ≠ SendOutcome.ok) :
    (sendRemainingAnswers maxResults st answers f).1.alive = false ∧
    (sendRemainingAnswers maxResults st answers f).1.numResultsSent
        = st.numResultsSent + k ∧
    (sendRemainingAnswers maxResults st answers f).1.sentLog
        = st.sentLog ++
          ((flushToSend maxResults st.numResultsSent answers).take k).map
            (fun r => (r, sendPayload r)) ∧
    unsentOf (sendRemainingAnswers maxResults st answers f).2
        = (unsentOf answers).drop k := by
  have hff : firstFailure f (flushToSend maxResults st.numResultsSent answers).length
      = some k := firstFailure_eq_some hk hok hfail
  unfold sendRemainingAnswers
  simp only [halive, Bool.not_true, Bool.false_eq_true, if_false, hff,
    Option.getD_some, Option.isSome_some, if_true]
  exact ⟨trivial, trivial, trivial, unsentOf_markFirstUnsent k answers⟩

/-- Concrete instantiation of `c9_flush_send_failure`: the second send of a
two-record flush raises a non-connection exception; the alive event is
cleared. -/
theorem c9_flush_send_failure_witness :
    (sendRemainingAnswers 10
      ⟨[], 0, true, none, []⟩
      [[("name", .vStr "a"), ("score", .vInt 80), ("sent", .vBool false)],
       [("name", .vStr "b"), ("score", .vInt 70), ("sent", .vBool false)]]
      (fun i => if i = 1 then SendOutcome.otherError else SendOutcome.ok)).1.alive
      = false :=
  (c9_flush_send_failure 10 ⟨[], 0, true, none, []⟩
    [[("name", .vStr "a"), ("score", .vInt 80), ("sent", .vBool false)],
     [("name", .vStr "b"), ("score", .vInt 70), ("sent", .vBool false)]]
    (fun i => if i = 1 then SendOutcome.otherError else SendOutcome.ok) 1
    rfl (by decide) (by decide) (by decide)).1

/-! ### The score-floor invariant -/

theorem pyGtB_ok_true_elim {v : Option PyVal} {n : Int}
    (h : pyGtB v n = .ok true) :
    ∃ m : Int, v.bind pyIntVal = some m ∧ n < m := by
  cases v with
  | none => simp [pyGtB] at h
  | some u =>
    cases hu : pyIntVal u with
    | none => simp [pyGtB, hu] at h
    | some m =>
      refine ⟨m, by simp [hu], ?_⟩
      simp [pyGtB, hu] at h
      exact h

theorem mem_flushToSend {m s : Nat} {answers : List PyDict} {r : PyDict}
    (h : r ∈ flushToSend m s answers) : r ∈ answers := by
  unfold flushToSend at h
  by_cases hs : remainingSlots m s ≤ 0
  · rw [if_pos hs] at h
    simp at h
  · rw [if_neg hs] at h
    exact (List.mem_filter.mp (List.mem_of_mem_take h)).1

theorem sentScoresOk_rankItem (cfg : Cfg) (st : RState) (run : ItemRun)
    (h : sentScoresOk cfg st) : sentScoresOk cfg (rankItem cfg st run).1 := by
  rcases rankItem_spec cfg st run with ⟨sv, dv, hs, hd, hcase⟩ | ⟨hmiss, heq⟩
  · simp only [] at hcase
    rcases hcase with ⟨⟨hgt, ha, hq⟩, hso, heq⟩ | ⟨hcond, hso, heq⟩ |
      ⟨hcond, hso, heq⟩ | ⟨hncond, flag, heq, hflag⟩
    · rw [heq]
      intro e he
      simp only [List.mem_append, List.mem_singleton] at he
      rcases he with he | he
      · exact h e he
      · subst he
        obtain ⟨m, hm, hlt⟩ := pyGtB_ok_true_elim hgt
        refine ⟨m, ?_, Or.inl hlt⟩
        rw [show (dictSet (buildResult run.schemaObject run.url run.name run.site sv dv)
            "sent" (.vBool true), sendPayload
              (buildResult run.schemaObject run.url run.name run.site sv dv)).1
            = dictSet (buildResult run.schemaObject run.url run.name run.site sv dv)
              "sent" (.vBool true) from rfl]
        rw [dictGet_score_dictSet_sent]
        exact hm
    · rw [heq]
      exact h
    · rw [heq]
      exact h
    · rw [heq]
      exact h
  · rw [heq]
    exact h

theorem sentScoresOk_runEvents (cfg : Cfg) (evs : List Event) :
    ∀ st : RState, sentScoresOk cfg st →
      sentScoresOk cfg (runEvents cfg st evs) := by
  induction evs with
  | nil => exact fun st h => h
  | cons ev evs ih =>
    intro st h
    refine ih (stepEvent cfg st ev) ?_
    cases ev with
    | item run => exact sentScoresOk_rankItem cfg st run h
    | connLost => exact h

theorem sentScoresOk_sendRemaining (cfg : Cfg) (st : RState)
    (answers : List PyDict) (f : Nat → SendOutcome)
    (h : sentScoresOk cfg st)
    (hans : ∀ r ∈ answers, ∃ m : Int,
      (dictGet r "score").bind pyIntVal = some m ∧ cfg.minScore < m) :
    sentScoresOk cfg (sendRemainingAnswers cfg.maxResults st answers f).1 := by
  unfold sendRemainingAnswers
  by_cases ha : st.alive
  · simp only [ha, Bool.not_true, Bool.false_eq_true, if_false]
    intro e he
    simp only [List.mem_append, List.mem_map] at he
    rcases he with he | ⟨r, hr, he⟩
    · exact h e he
    · obtain ⟨m, hm, hlt⟩ := hans r (mem_flushToSend (List.mem_of_mem_take hr))
      subst he
      exact ⟨m, hm, Or.inr hlt⟩
  · simp only [ha, Bool.not_false, if_true]
    exact h

theorem sentScoresOk_doTail (cfg : Cfg) (st : RState) (f : Nat → SendOutcome)
    (h : sentScoresOk cfg st) : sentScoresOk cfg (doTail cfg st f).1 := by
  unfold doTail
  by_cases ha : st.alive
  · simp only [ha, Bool.not_true, Bool.false_eq_true, if_false]
    cases hf : pyFilterGtScore cfg.minScore st.rankedAnswers with
    | error e => exact h
    | ok fl =>
      refine sentScoresOk_sendRemaining cfg _ _ f h ?_
      intro r hr
      have hrfl : r ∈ fl := (sortByScoreDesc_mem fl r).mp hr
      exact pyGtB_ok_true_elim (pyFilterGtScore_ok_mem hf r hrfl).1
  · simp only [ha, Bool.not_false, if_true]
    exact h

theorem sendRemaining_sentLog_nil (m : Nat) (st : RState) (f : Nat → SendOutcome) :
    (sendRemainingAnswers m st [] f).1.sentLog = st.sentLog := by
  unfold sendRemainingAnswers
  by_cases ha : st.alive
  · simp [ha, flushToSend, unsentOf, firstFailure]
  · simp [ha]

/-- C2 (counterexample): `min_score` is read from `get_param` per request
and may exceed the constant `EARLY_SEND_THRESHOLD = 59`.  With
`min_score = 60` an item the scorer rates exactly 60 is delivered early
(60 > 59) even though its score is not strictly greater than `min_score`,
and `EARLY_SEND_THRESHOLD ≥ min_score` fails for this configuration. -/
theorem c2_score_floor_counterexample :
    ((doRun ⟨10, 60, false⟩
        [Event.item ⟨[], "u", "n", "s",
          [("score", .vInt 60), ("description", .vStr "d")], SendOutcome.ok⟩]
        (fun _ => SendOutcome.ok)).1.sentLog.map (fun e => dictGet e.1 "score"))
      = [some (.vInt 60)] ∧
    ¬ ((60 : Int) > (60 : Int)) ∧
    ¬ (EARLY_SEND_THRESHOLD ≥ (60 : Int)) := by
  refine ⟨?_, by decide, by decide⟩
  have hlog : (doRun ⟨10, 60, false⟩
        [Event.item ⟨[], "u", "n", "s",
          [("score", .vInt 60), ("description", .vStr "d")], SendOutcome.ok⟩]
        (fun _ => SendOutcome.ok)).1.sentLog
      = (rankItem ⟨10, 60, false⟩ initState
          ⟨[], "u", "n", "s",
            [("score", .vInt 60), ("description", .vStr "d")], SendOutcome.ok⟩).1.sentLog := by
    unfold doRun doTail
    rw [show runEvents ⟨10, 60, false⟩ initState
        [Event.item ⟨[], "u", "n", "s",
          [("score", .vInt 60), ("description", .vStr "d")], SendOutcome.ok⟩]
        = (rankItem ⟨10, 60, false⟩ initState
            ⟨[], "u", "n", "s",
              [("score", .vInt 60), ("description", .vStr "d")], SendOutcome.ok⟩).1 from rfl]
    rw [show (!(rankItem ⟨10, 60, false⟩ initState
        ⟨[], "u", "n", "s",
          [("score", .vInt 60), ("description", .vStr "d")], SendOutcome.ok⟩).1.alive)
        = false from rfl]
    simp only [Bool.false_eq_true, if_false]
    simp only [show pyFilterGtScore (⟨10, 60, false⟩ : Cfg).minScore
        (rankItem ⟨10, 60, false⟩ initState
          ⟨[], "u", "n", "s",
            [("score", .vInt 60), ("description", .vStr "d")], SendOutcome.ok⟩).1.rankedAnswers
        = Except.ok [] from rfl]
    rw [show sortByScoreDesc [] = [] by simp [sortByScoreDesc]]
    rw [sendRemaining_sentLog_nil]
  rw [hlog]
  rfl

/-- C2 (amended): every record delivered for a request has a numeric score
that exceeds `EARLY_SEND_THRESHOLD` (early deliveries) or `min_score`
(flush deliveries); consequently whenever the configured
`min_score ≤ EARLY_SEND_THRESHOLD` — as with the default 51 against the
constant 59 — every delivered record has score strictly greater than
`min_score`.  (`EARLY_SEND_THRESHOLD ≥ min_score` is not guaranteed for
arbitrary configurations, by `c2_score_floor_counterexample`.) -/
theorem c2_score_floor_amended (cfg : Cfg) (evs : List Event)
    (f : Nat → SendOutcome) :
    (∀ e ∈ (doRun cfg evs f).1.sentLog,
      ∃ m : Int, (dictGet e.1 "score").bind pyIntVal = some m ∧
        (EARLY_SEND_THRESHOLD < m ∨ cfg.minScore < m)) ∧
    (cfg.minScore ≤ EARLY_SEND_THRESHOLD →
      ∀ e ∈ (doRun cfg evs f).1.sentLog,
        ∃ m : Int, (dictGet e.1 "score").bind pyIntVal = some m ∧
          cfg.minScore < m) := by
  have h0 : sentScoresOk cfg initState := by
    intro e he
    simp [initState] at he
  have h1 := sentScoresOk_runEvents cfg evs initState h0
  have h2 := sentScoresOk_doTail cfg (runEvents cfg initState evs) f h1
  refine ⟨h2, fun hle e he => ?_⟩
  obtain ⟨m, hm, hd⟩ := h2 e he
  refine ⟨m, hm, ?_⟩
  rcases hd with hlt | hlt
  · omega
  · exact hlt

/-- Concrete instantiation of `c2_score_floor_amended` at the default
configuration (`min_score = 51 ≤ 59`). -/
theorem c2_score_floor_amended_witness :
    ∀ e ∈ (doRun ⟨10, 51, false⟩
        [Event.item ⟨[], "u", "n", "s",
          [("score", .vInt 80), ("description", .vStr "d")], SendOutcome.ok⟩]
        (fun _ => SendOutcome.ok)).1.sentLog,
      ∃ m : Int, (dictGet e.1 "score").bind pyIntVal = some m ∧
        (51 : Int) < m :=
  (c2_score_floor_amended ⟨10, 51, false⟩
    [Event.item ⟨[], "u", "n", "s",
      [("score", .vInt 80), ("description", .vStr "d")], SendOutcome.ok⟩]
    (fun _ => SendOutcome.ok)).2 (by decide)
/-- C3: after the fan-out has joined (connection alive, the score filter of
line 210 completing without error on the collected answers), the value
stored in `handler.final_ranked_answers` is the ranked list truncated to
the first `max_results` entries, where the ranked list is exactly the
collected answers filtered to `score > min_score` (strict: a record scoring
exactly `min_score` is excluded), is a permutation of that qualifying set,
is sorted by score descending, and keeps equal-score records in their
original arrival order (stability, stated as filter-equality per score
class). -/
theorem c3_final_result_set (cfg : Cfg) (st : RState) (f : Nat → SendOutcome)
    (fl : List PyDict)
    (halive : st.alive = true)
    (hfl : pyFilterGtScore cfg.minScore st.rankedAnswers = .ok fl) :
    ∃ ranked : List PyDict,
      (doTail cfg st f).1.finalRankedAnswers = some (ranked.take cfg.maxResults) ∧
      fl = st.rankedAnswers.filter (passesMinScore cfg.minScore) ∧
      List.Perm ranked fl ∧
      ranked.Pairwise (fun a b => scoreKey b ≤ scoreKey a) ∧
      (∀ c : Int, ranked.filter (fun r => scoreKey r == c)
        = fl.filter (fun r => scoreKey r == c)) := by
  refine ⟨sortByScoreDesc fl, ?_, pyFilterGtScore_ok_eq_filter hfl,
    sortByScoreDesc_perm fl, sortByScoreDesc_sorted fl, sortByScoreDesc_stable fl⟩
  unfold doTail
  simp only [halive, Bool.not_true, Bool.false_eq_true, if_false, hfl]
  rw [sendRemaining_finalRankedAnswers]

/-- Concrete instantiation of `c3_final_result_set`: two collected answers
scoring 80 and 50 under the default floor 51. -/
theorem c3_final_result_set_witness :
    ∃ ranked : List PyDict,
      (doTail ⟨10, 51, false⟩
        ⟨[[("score", .vInt 80), ("sent", .vBool false)],
          [("score", .vInt 50), ("sent", .vBool false)]], 0, true, none, []⟩
        (fun _ => SendOutcome.ok)).1.finalRankedAnswers
        = some (ranked.take 10) ∧
      [[("score", PyVal.vInt 80), ("sent", PyVal.vBool false)]]
        = List.filter (passesMinScore 51)
            [[("score", PyVal.vInt 80), ("sent", PyVal.vBool false)],
             [("score", PyVal.vInt 50), ("sent", PyVal.vBool false)]] ∧
      List.Perm ranked [[("score", PyVal.vInt 80), ("sent", PyVal.vBool false)]] ∧
      ranked.Pairwise (fun a b => scoreKey b ≤ scoreKey a) ∧
      (∀ c : Int, ranked.filter (fun r => scoreKey r == c)
        = List.filter (fun r => scoreKey r == c)
            [[("score", PyVal.vInt 80), ("sent", PyVal.vBool false)]]) :=
  c3_final_result_set ⟨10, 51, false⟩
    ⟨[[("score", .vInt 80), ("sent", .vBool false)],
      [("score", .vInt 50), ("sent", .vBool false)]], 0, true, none, []⟩
    (fun _ => SendOutcome.ok)
    [[("score", PyVal.vInt 80), ("sent", PyVal.vBool false)]] rfl rfl

/-! ### The sent-count accounting invariant -/

theorem isSent_buildResult (so : PyDict) (url name site : String)
    (sc d : PyVal) (h : dictGet so "sent" = none) :
    isSent (buildResult so url name site sc d) = false := by
  simp [isSent, dictGet_sent_buildResult so url name site sc d h, pyTruthy]

theorem countSent_rankItem (cfg : Cfg) (st : RState) (run : ItemRun)
    (hnosent : dictGet run.schemaObject "sent" = none)
    (h : st.rankedAnswers.countP isSent = st.numResultsSent) :
    (rankItem cfg st run).1.rankedAnswers.countP isSent
      = (rankItem cfg st run).1.numResultsSent := by
  rcases rankItem_spec cfg st run with ⟨sv, dv, hs, hd, hcase⟩ | ⟨hmiss, heq⟩
  · have hf : isSent (buildResult run.schemaObject run.url run.name run.site sv dv)
        = false := isSent_buildResult run.schemaObject run.url run.name run.site sv dv hnosent
    simp only [] at hcase
    rcases hcase with ⟨hcond, hso, heq⟩ | ⟨hcond, hso, heq⟩ |
      ⟨hcond, hso, heq⟩ | ⟨hncond, flag, heq, hflag⟩
    · rw [heq]
      simp [List.countP_append, List.countP_cons, isSent_dictSet_sent, h]
    · rw [heq]
      simp [List.countP_append, List.countP_cons, hf, h]
    · rw [heq]
      simp [List.countP_append, List.countP_cons, hf, h]
    · rw [heq]
      simp [List.countP_append, List.countP_cons, hf, h]
  · rw [heq]
    exact h

theorem countSent_runEvents (cfg : Cfg) :
    ∀ evs : List Event,
      (∀ run, Event.item run ∈ evs → dictGet run.schemaObject "sent" = none) →
      ∀ st : RState, st.rankedAnswers.countP isSent = st.numResultsSent →
        (runEvents cfg st evs).rankedAnswers.countP isSent
          = (runEvents cfg st evs).numResultsSent := by
  intro evs
  induction evs with
  | nil => exact fun _ st h => h
  | cons ev evs ih =>
    intro hall st h
    refine ih (fun run hr => hall run (List.mem_cons_of_mem _ hr))
      (stepEvent cfg st ev) ?_
    cases ev with
    | item run => exact countSent_rankItem cfg st run (hall run (List.mem_cons_self _ _)) h
    | connLost => exact h

/-- C4 (counterexample): the flush can deliver a record outside the
truncated final set.  The attribute merge of ranking.py lines 79-81 copies
every schema attribute except `url` over the result record, so a document
defining a `sent` attribute overwrites the internal flag set at line 75.
With quota 1 and two qualifying items — the higher-scoring one born
`sent = true` by its document, the lower one unsent — the flush skips the
top record as already sent and delivers the second, which lies outside the
truncated top-1 final set, while the specified step delivers nothing (the
only truncated-set entry is marked sent).  Concretely: the delivery log
holds exactly the record with url `ub`, and the final result set exactly
the record with url `ua`. -/
theorem c4_flush_outside_final_set_counterexample :
    (runEvents ⟨1, 51, false⟩ initState
        [Event.item ⟨[("sent", .vBool true)], "ua", "na", "s",
           [("score", .vInt 55), ("description", .vStr "d")], SendOutcome.ok⟩,
         Event.item ⟨[], "ub", "nb", "s",
           [("score", .vInt 52), ("description", .vStr "d")], SendOutcome.ok⟩]).rankedAnswers
      = [[("@type", .vStr "Item"), ("url", .vStr "ua"), ("name", .vStr "na"),
          ("site", .vStr "s"), ("score", .vInt 55), ("description", .vStr "d"),
          ("sent", .vBool true)],
         [("@type", .vStr "Item"), ("url", .vStr "ub"), ("name", .vStr "nb"),
          ("site", .vStr "s"), ("score", .vInt 52), ("description", .vStr "d"),
          ("sent", .vBool false)]] ∧
    (runEvents ⟨1, 51, false⟩ initState
        [Event.item ⟨[("sent", .vBool true)], "ua", "na", "s",
           [("score", .vInt 55), ("description", .vStr "d")], SendOutcome.ok⟩,
         Event.item ⟨[], "ub", "nb", "s",
           [("score", .vInt 52), ("description", .vStr "d")], SendOutcome.ok⟩]).numResultsSent
      = 0 ∧
    flushToSend 1 0
        [[("@type", .vStr "Item"), ("url", .vStr "ua"), ("name", .vStr "na"),
          ("site", .vStr "s"), ("score", .vInt 55), ("description", .vStr "d"),
          ("sent", .vBool true)],
         [("@type", .vStr "Item"), ("url", .vStr "ub"), ("name", .vStr "nb"),
          ("site", .vStr "s"), ("score", .vInt 52), ("description", .vStr "d"),
          ("sent", .vBool false)]]
      = [[("@type", .vStr "Item"), ("url", .vStr "ub"), ("name", .vStr "nb"),
          ("site", .vStr "s"), ("score", .vInt 52), ("description", .vStr "d"),
          ("sent", .vBool false)]] ∧
    specFlushRemaining 1 0
        [[("@type", .vStr "Item"), ("url", .vStr "ua"), ("name", .vStr "na"),
          ("site", .vStr "s"), ("score", .vInt 55), ("description", .vStr "d"),
          ("sent", .vBool true)],
         [("@type", .vStr "Item"), ("url", .vStr "ub"), ("name", .vStr "nb"),
          ("site", .vStr "s"), ("score", .vInt 52), ("description", .vStr "d"),
          ("sent", .vBool false)]]
      = [] ∧
    (doRun ⟨1, 51, false⟩
        [Event.item ⟨[("sent", .vBool true)], "ua", "na", "s",
           [("score", .vInt 55), ("description", .vStr "d")], SendOutcome.ok⟩,
         Event.item ⟨[], "ub", "nb", "s",
           [("score", .vInt 52), ("description", .vStr "d")], SendOutcome.ok⟩]
        (fun _ => SendOutcome.ok)).1.finalRankedAnswers
      = some [[("@type", .vStr "Item"), ("url", .vStr "ua"), ("name", .vStr "na"),
          ("site", .vStr "s"), ("score", .vInt 55), ("description", .vStr "d"),
          ("sent", .vBool true)]] ∧
    (doRun ⟨1, 51, false⟩
        [Event.item ⟨[("sent", .vBool true)], "ua", "na", "s",
           [("score", .vInt 55), ("description", .vStr "d")], SendOutcome.ok⟩,
         Event.item ⟨[], "ub", "nb", "s",
           [("score", .vInt 52), ("description", .vStr "d")], SendOutcome.ok⟩]
        (fun _ => SendOutcome.ok)).1.sentLog.map (fun e => dictGet e.1 "url")
      = [some (.vStr "ub")] ∧
    dictGet [("@type", .vStr "Item"), ("url", .vStr "ua"), ("name", .vStr "na"),
        ("site", .vStr "s"), ("score", .vInt 55), ("description", .vStr "d"),
        ("sent", .vBool true)] "url"
      = some (.vStr "ua") := by
  have hpair : List.Pairwise (fun a b => scoreDescLe a b = true)
      [[("@type", PyVal.vStr "Item"), ("url", PyVal.vStr "ua"), ("name", PyVal.vStr "na"),
        ("site", PyVal.vStr "s"), ("score", PyVal.vInt 55), ("description", PyVal.vStr "d"),
        ("sent", PyVal.vBool true)],
       [("@type", PyVal.vStr "Item"), ("url", PyVal.vStr "ub"), ("name", PyVal.vStr "nb"),
        ("site", PyVal.vStr "s"), ("score", PyVal.vInt 52), ("description", PyVal.vStr "d"),
        ("sent", PyVal.vBool false)]] := by
    refine List.pairwise_cons.mpr ⟨?_, List.pairwise_singleton _ _⟩
    intro b hb
    rw [List.mem_singleton] at hb
    subst hb
    rfl
  have hsort : sortByScoreDesc
      [[("@type", PyVal.vStr "Item"), ("url", PyVal.vStr "ua"), ("name", PyVal.vStr "na"),
        ("site", PyVal.vStr "s"), ("score", PyVal.vInt 55), ("description", PyVal.vStr "d"),
        ("sent", PyVal.vBool true)],
       [("@type", PyVal.vStr "Item"), ("url", PyVal.vStr "ub"), ("name", PyVal.vStr "nb"),
        ("site", PyVal.vStr "s"), ("score", PyVal.vInt 52), ("description", PyVal.vStr "d"),
        ("sent", PyVal.vBool false)]]
      = [[("@type", PyVal.vStr "Item"), ("url", PyVal.vStr "ua"), ("name", PyVal.vStr "na"),
          ("site", PyVal.vStr "s"), ("score", PyVal.vInt 55), ("description", PyVal.vStr "d"),
          ("sent", PyVal.vBool true)],
         [("@type", PyVal.vStr "Item"), ("url", PyVal.vStr "ub"), ("name", PyVal.vStr "nb"),
          ("site", PyVal.vStr "s"), ("score", PyVal.vInt 52), ("description", PyVal.vStr "d"),
          ("sent", PyVal.vBool false)]] := by
    unfold sortByScoreDesc
    exact List.mergeSort_of_sorted hpair
  have hdo : (doRun ⟨1, 51, false⟩
        [Event.item ⟨[("sent", .vBool true)], "ua", "na", "s",
           [("score", .vInt 55), ("description", .vStr "d")], SendOutcome.ok⟩,
         Event.item ⟨[], "ub", "nb", "s",
           [("score", .vInt 52), ("description", .vStr "d")], SendOutcome.ok⟩]
        (fun _ => SendOutcome.ok)).1
      = ⟨[[("@type", .vStr "Item"), ("url", .vStr "ua"), ("name", .vStr "na"),
           ("site", .vStr "s"), ("score", .vInt 55), ("description", .vStr "d"),
           ("sent", .vBool true)],
          [("@type", .vStr "Item"), ("url", .vStr "ub"), ("name", .vStr "nb"),
           ("site", .vStr "s"), ("score", .vInt 52), ("description", .vStr "d"),
           ("sent", .vBool false)]],
         1, true,
         some [[("@type", .vStr "Item"), ("url", .vStr "ua"), ("name", .vStr "na"),
           ("site", .vStr "s"), ("score", .vInt 55), ("description", .vStr "d"),
           ("sent", .vBool true)]],
         [([("@type", .vStr "Item"), ("url", .vStr "ub"), ("name", .vStr "nb"),
            ("site", .vStr "s"), ("score", .vInt 52), ("description", .vStr "d"),
            ("sent", .vBool false)],
           [("@type", .vStr "Item"), ("url", .vStr "ub"), ("name", .vStr "nb"),
            ("site", .vStr "s"), ("description", .vStr "d")])]⟩ := by
    unfold doRun doTail
    rw [show runEvents ⟨1, 51, false⟩ initState
        [Event.item ⟨[("sent", .vBool true)], "ua", "na", "s",
           [("score", .vInt 55), ("description", .vStr "d")], SendOutcome.ok⟩,
         Event.item ⟨[], "ub", "nb", "s",
           [("score", .vInt 52), ("description", .vStr "d")], SendOutcome.ok⟩]
        = (⟨[[("@type", .vStr "Item"), ("url", .vStr "ua"), ("name", .vStr "na"),
              ("site", .vStr "s"), ("score", .vInt 55), ("description", .vStr "d"),
              ("sent", .vBool true)],
             [("@type", .vStr "Item"), ("url", .vStr "ub"), ("name", .vStr "nb"),
              ("site", .vStr "s"), ("score", .vInt 52), ("description", .vStr "d"),
              ("sent", .vBool false)]], 0, true, none, []⟩ : RState) from rfl]
    simp only [show pyFilterGtScore (⟨1, 51, false⟩ : Cfg).minScore
        (⟨[[("@type", .vStr "Item"), ("url", .vStr "ua"), ("name", .vStr "na"),
            ("site", .vStr "s"), ("score", .vInt 55), ("description", .vStr "d"),
            ("sent", .vBool true)],
           [("@type", .vStr "Item"), ("url", .vStr "ub"), ("name", .vStr "nb"),
            ("site", .vStr "s"), ("score", .vInt 52), ("description", .vStr "d"),
            ("sent", .vBool false)]], 0, true, none, []⟩ : RState).rankedAnswers
        = Except.ok
          [[("@type", .vStr "Item"), ("url", .vStr "ua"), ("name", .vStr "na"),
            ("site", .vStr "s"), ("score", .vInt 55), ("description", .vStr "d"),
            ("sent", .vBool true)],
           [("@type", .vStr "Item"), ("url", .vStr "ub"), ("name", .vStr "nb"),
            ("site", .vStr "s"), ("score", .vInt 52), ("description", .vStr "d"),
            ("sent", .vBool false)]] from rfl]
    rw [hsort]
    rfl
  refine ⟨rfl, rfl, rfl, rfl, ?_, ?_, rfl⟩
  · rw [hdo]
  · rw [hdo]
    rfl

/-- C4 (amended): the final flush as implemented — handed the whole sorted
qualifying list, sending its first `max_results - num_results_sent` unsent
records — refines the specified step exactly when the sent marks in the
truncated top segment are accounted for by the delivered counter (first
part): it then sends precisely the unsent records of the truncated
top-`max_results` set, up to the free slots, in sorted order; no record
outside the truncated final set is delivered, and nothing is sent when no
slots remain.  The second part discharges that accounting hypothesis for
every state actually reachable by a run none of whose documents defines a
schema attribute named `sent`: there the counter equals the number of sent
marks, so the sorted qualifying list the flush receives satisfies the
hypothesis.  The proviso is necessary: the attribute merge of ranking.py
lines 79-81 lets a document's `sent` attribute alias the internal flag,
and the flush then delivers outside the truncated final set — see the
counterexample above. -/
theorem c4_flush_refinement :
    (∀ (maxResults numSent : Nat) (answers : List PyDict),
      (answers.take maxResults).countP isSent ≤ numSent →
      flushToSend maxResults numSent answers
          = specFlushRemaining maxResults numSent answers ∧
      (∀ r ∈ flushToSend maxResults numSent answers, r ∈ answers.take maxResults) ∧
      (remainingSlots maxResults numSent ≤ 0 →
        flushToSend maxResults numSent answers = [])) ∧
    (∀ (cfg : Cfg) (evs : List Event) (fl : List PyDict),
      (∀ run, Event.item run ∈ evs → dictGet run.schemaObject "sent" = none) →
      pyFilterGtScore cfg.minScore (runEvents cfg initState evs).rankedAnswers
        = .ok fl →
      ((sortByScoreDesc fl).take cfg.maxResults).countP isSent
        ≤ (runEvents cfg initState evs).numResultsSent) := by
  constructor
  · intro maxResults numSent answers h
    have heq := flushToSend_eq_spec maxResults numSent answers h
    refine ⟨heq, ?_, ?_⟩
    · intro r hr
      rw [heq] at hr
      exact specFlushRemaining_subset maxResults numSent answers r hr
    · intro hs
      unfold flushToSend
      rw [if_pos hs]
  · intro cfg evs fl hall hfl
    have hinv := countSent_runEvents cfg evs hall initState rfl
    calc ((sortByScoreDesc fl).take cfg.maxResults).countP isSent
        ≤ (sortByScoreDesc fl).countP isSent :=
          (List.take_sublist cfg.maxResults (sortByScoreDesc fl)).countP_le isSent
      _ = fl.countP isSent := (sortByScoreDesc_perm fl).countP_eq isSent
      _ ≤ (runEvents cfg initState evs).rankedAnswers.countP isSent :=
          (pyFilterGtScore_ok_sublist hfl).countP_le isSent
      _ = (runEvents cfg initState evs).numResultsSent := hinv

/-- Concrete instantiation of `c4_flush_refinement`: quota 1, nothing yet
delivered, two unsent qualifying records — the code flush equals the
specified flush and stays inside the truncated top-1 set. -/
theorem c4_flush_refinement_witness :
    flushToSend 1 0
        [[("score", .vInt 80), ("sent", .vBool false)],
         [("score", .vInt 70), ("sent", .vBool false)]]
      = specFlushRemaining 1 0
        [[("score", .vInt 80), ("sent", .vBool false)],
         [("score", .vInt 70), ("sent", .vBool false)]] :=
  (c4_flush_refinement.1 1 0
    [[("score", .vInt 80), ("sent", .vBool false)],
     [("score", .vInt 70), ("sent", .vBool false)]] (by decide)).1

/-! ### The post-query map step -/

theorem locationsOf_ok_eq_filterMap {results : List PyDict}
    {locs : List (PyVal × String)} (h : locationsOf results = .ok locs) :
    locs = results.filterMap (fun r =>
      match extractAddress r with
      | .ok (some a) =>
        if pyTruthy a then
          some ((dictGet r "name").getD (.vStr "Unnamed"), pyStr a)
        else none
      | _ => none) := by
  induction results generalizing locs with
  | nil =>
    simp [locationsOf] at h
    simp [h]
  | cons r rs ih =>
    unfold locationsOf at h
    cases hx : extractAddress r with
    | error e => rw [hx] at h; simp at h
    | ok oa =>
      rw [hx] at h
      cases oa with
      | none =>
        simp only [] at h
        simp [List.filterMap_cons, hx, ih h]
      | some a =>
        cases hrec : locationsOf rs with
        | error e => rw [hrec] at h; simp at h
        | ok ls =>
          rw [hrec] at h
          by_cases ht : pyTruthy a
          · simp only [ht, if_true, Except.ok.injEq] at h
            subst h
            simp [List.filterMap_cons, hx, ht, ih hrec]
          · simp only [ht, Bool.false_eq_true, if_false, Except.ok.injEq] at h
            subst h
            simp [List.filterMap_cons, hx, ht, ih hrec]

/-- C10: `check_and_send_map_message` emits exactly one synthetic
`LocationMap` record if and only if the final result set is non-empty and
the number of its entries with a truthy extractable address is at least
half the total count (`count >= total/2`, stated over integers as
`2*count >= total`; the code's extra `count > 0` conjunct is implied).
The emitted record lists, in final-set order, each such entry's `name`
(default `'Unnamed'`) paired with its address rendered as a string;
otherwise — and also when address extraction raises — no map record is
emitted and the failure is swallowed. -/
theorem c10_map_message :
    (∀ (results : List PyDict) (locs : List (PyVal × String)),
      locationsOf results = .ok locs →
      ((checkAndSendMapMessage results = .message locs) ↔
        (results ≠ [] ∧ 2 * locs.length ≥ results.length)) ∧
      locs = results.filterMap (fun r =>
        match extractAddress r with
        | .ok (some a) =>
          if pyTruthy a then
            some ((dictGet r "name").getD (.vStr "Unnamed"), pyStr a)
          else none
        | _ => none) ∧
      (¬(results ≠ [] ∧ 2 * locs.length ≥ results.length) →
        checkAndSendMapMessage results = .noMessage)) ∧
    (∀ (results : List PyDict) (e : Unit),
      locationsOf results = .error e →
      checkAndSendMapMessage results = .noMessage) := by
  constructor
  · intro results locs h
    refine ⟨?_, locationsOf_ok_eq_filterMap h, ?_⟩
    · unfold checkAndSendMapMessage
      by_cases hempty : results.isEmpty
      · rw [if_pos hempty]
        constructor
        · intro hmsg
          exact absurd hmsg (by simp)
        · rintro ⟨hne, -⟩
          exact absurd (List.isEmpty_iff.mp hempty) hne
      · rw [if_neg hempty]
        simp only [h]
        by_cases hc : 2 * locs.length ≥ results.length ∧ 0 < locs.length
        · rw [if_pos hc]
          have hne : results ≠ [] := fun hh => hempty (by simp [hh])
          simp [hne, hc.1]
        · rw [if_neg hc]
          constructor
          · intro hmsg
            exact absurd hmsg (by simp)
          · rintro ⟨hne, hhalf⟩
            have hlen : 0 < results.length := List.length_pos.mpr hne
            exact absurd ⟨hhalf, by omega⟩ hc
    · intro hn
      unfold checkAndSendMapMessage
      by_cases hempty : results.isEmpty
      · rw [if_pos hempty]
      · rw [if_neg hempty]
        simp only [h]
        have hne : results ≠ [] := fun hh => hempty (by simp [hh])
        rw [if_neg ?_]
        rintro ⟨hhalf, hpos⟩
        exact hn ⟨hne, hhalf⟩
  · intro results e he
    unfold checkAndSendMapMessage
    by_cases hempty : results.isEmpty
    · rw [if_pos hempty]
    · rw [if_neg hempty]
      simp only [he]

/-- Concrete instantiation of `c10_map_message`: one of two results has an
address, so exactly one `LocationMap` record is emitted. -/
theorem c10_map_message_witness :
    checkAndSendMapMessage
      [[("name", .vStr "Place"), ("address", .vStr "1 Main St")],
       [("name", .vStr "Other")]]
      = .message [(.vStr "Place", "1 Main St")] :=
  ((c10_map_message.1
    [[("name", .vStr "Place"), ("address", .vStr "1 Main St")],
     [("name", .vStr "Other")]]
    [(.vStr "Place", "1 Main St")] rfl).1).mpr ⟨by simp, by decide⟩
